import Mathlib

/-!
# Fillico background assets manager (src/web/js/bg-assets.js)

Shallow embedding of `BgAssetManager` and of the constant `ATLAS_CONFIG`.

Modelling conventions
* JavaScript numbers are modelled as exact rationals (`ℚ`). The category selector is also
  modelled on IEEE 754 binary64 numbers (`roundDouble`, `getRandomTypeIndexDouble`), because
  there rounding decides whether the loop returns; for natural weights the two models agree
  on the rounded draw (`getRandomTypeIndexDouble_natural`). Elsewhere rounding moves a
  coordinate or an interval end by one binary64 number and is not modelled.
* `Math.random()` is modelled by a stream `rand : ℕ → ℚ` read at a cursor; every call of
  `Math.random()` reads one element and advances the cursor by one.
* A thrown `TypeError` (destructuring `undefined`) is modelled by `none`.
* DOM elements are modelled by records of the style values the code assigns.
* Time is counted in milliseconds; `setTimeout` and `clearTimeout` act on the list of the
  pending timers of the page, all of which run `generateAssets()`.
-/

namespace Fillico

/-! ## Configuration -/

/-- The shape of the constant object `ATLAS_CONFIG` (bg-assets.js, lines 6-25). -/
structure AtlasConfig where
  cols : ℕ
  rows : ℕ
  subgrids : List (ℕ × ℕ)
  weights : List ℚ

/-- The shipped constant `ATLAS_CONFIG`. -/
def ATLAS_CONFIG : AtlasConfig where
  cols := 4
  rows := 4
  subgrids :=
    [(4, 4), (2, 3), (3, 3), (2, 2),
     (4, 4), (4, 3), (3, 3), (3, 3),
     (2, 3), (4, 2), (3, 2), (2, 2),
     (4, 3), (3, 2), (3, 3), (2, 2)]
  weights :=
    [12, 8, 8, 5,
     11, 7, 8, 10,
     7, 6, 6, 0,
     2, 2, 2, 2]

/-! ## Category selector (lines 67-78) -/

/-- The value `ATLAS_CONFIG.weights.reduce((sum, w) => sum + w, 0)`. -/
def totalWeight (weights : List ℚ) : ℚ :=
  weights.foldl (fun sum w => sum + w) 0

/-- The `for` loop of `getRandomTypeIndex` on exact numbers, entered at index `i` with the
current value of `random`: subtract `weights[i]`, return `i` when the remainder is `<= 0`,
else go on. `none` means that the loop ran off the end of the array. The subtraction is exact
here; `walkDouble` is the loop with the rounded subtraction of the source, equal to this one
for natural weights (`walkDouble_eq_walk`) and not for fractional ones
(`fractional_fallback`). -/
def walk : List ℚ → ℚ → ℕ → Option ℕ
  | [], _, _ => none
  | w :: ws, random, i =>
    let random1 := random - w
    if random1 ≤ 0 then some i else walk ws random1 (i + 1)

/-- The body of `getRandomTypeIndex` after the draw: `u` is the initial value of `random`,
that is `Math.random() * totalWeight`. The trailing `return 0` is the `getD 0`. -/
def selectIndex (weights : List ℚ) (u : ℚ) : ℕ :=
  (walk weights u 0).getD 0

/-- The method `getRandomTypeIndex`, `r` being the value returned by `Math.random()`. -/
def getRandomTypeIndex (cfg : AtlasConfig) (r : ℚ) : ℕ :=
  selectIndex cfg.weights (r * totalWeight cfg.weights)

/-- A configuration's weight vector is well formed: non-empty, non-negative, total `> 0`. -/
def WellFormedWeights (weights : List ℚ) : Prop :=
  weights ≠ [] ∧ (∀ w ∈ weights, 0 ≤ w) ∧ 0 < totalWeight weights

/-! ## Category selector on binary64 numbers (lines 67-78) -/

/-- Rounding of a rational to the nearest integer, ties to the even one. -/
def roundHalfEven (q : ℚ) : ℤ :=
  if q - ⌊q⌋ < 1 / 2 then ⌊q⌋
  else if 1 / 2 < q - ⌊q⌋ then ⌊q⌋ + 1
  else if ⌊q⌋ % 2 = 0 then ⌊q⌋ else ⌊q⌋ + 1

/-- The exponent of the unit in the last place of the binary64 numbers around `x`: 52 below
the binary exponent of `x`, and never below that of the subnormal numbers. -/
def ulpExponent (x : ℚ) : ℤ :=
  max (Int.log 2 |x| - 52) (-1074)

/-- The IEEE 754 binary64 value of a real `x` (round to nearest, ties to even); overflow to
`Infinity` is not modelled. Every arithmetic operation of JavaScript on numbers returns this
rounding of the exact result. -/
def roundDouble (x : ℚ) : ℚ :=
  (roundHalfEven (x / 2 ^ ulpExponent x) : ℚ) * 2 ^ ulpExponent x

/-- The rational `x` is a binary64 number (of any magnitude). -/
def IsDouble (x : ℚ) : Prop :=
  ∃ m e : ℤ, -1074 ≤ e ∧ |m| < 2 ^ 53 ∧ x = (m : ℚ) * 2 ^ e

/-- The value `ATLAS_CONFIG.weights.reduce((sum, w) => sum + w, 0)` on binary64 numbers: every
addition is rounded. -/
def totalWeightDouble (weights : List ℚ) : ℚ :=
  weights.foldl (fun sum w => roundDouble (sum + w)) 0

/-- The `for` loop of `getRandomTypeIndex` on binary64 numbers: `random -= weights[i]` is the
rounded difference. -/
def walkDouble : List ℚ → ℚ → ℕ → Option ℕ
  | [], _, _ => none
  | w :: ws, random, i =>
    let random1 := roundDouble (random - w)
    if random1 ≤ 0 then some i else walkDouble ws random1 (i + 1)

/-- The body of `getRandomTypeIndex` after the draw, on binary64 numbers. -/
def selectIndexDouble (weights : List ℚ) (u : ℚ) : ℕ :=
  (walkDouble weights u 0).getD 0

/-- The method `getRandomTypeIndex` on binary64 numbers, `r` being the value returned by
`Math.random()`: the total, the product `Math.random() * totalWeight` and every subtraction
are rounded. -/
def getRandomTypeIndexDouble (cfg : AtlasConfig) (r : ℚ) : ℕ :=
  selectIndexDouble cfg.weights (roundDouble (r * totalWeightDouble cfg.weights))

/-! ## Atlas geometry and element creation (lines 110-214) -/

/-- An axis-aligned rectangle `{x, y, w, h}` as stored in `placedRects`. -/
structure Rect where
  x : ℚ
  y : ℚ
  w : ℚ
  h : ℚ
deriving DecidableEq

/-- The style values that `createAssetElement` and `generateAssets` assign to one asset:
`width`, `height`, `left`, `top` of the outer wrapper (the inner wrapper has width and height
100% and `overflow: hidden`), `imgWidth`, `imgHeight` and the `translate` of the image, the
animation parameters and the rotation. -/
structure AssetElement where
  width : ℚ
  height : ℚ
  imgWidth : ℚ
  imgHeight : ℚ
  translateX : ℚ
  translateY : ℚ
  duration : ℚ
  delay : ℚ
  floatV : Bool
  rot : ℤ
  left : Option ℚ
  top : Option ℚ

/-- The object `{ element: floatWrapper, w: width, h: height }` returned by
`createAssetElement`. -/
structure AssetObj where
  element : AssetElement
  w : ℚ
  h : ℚ

/-- Lines 116-213 of `createAssetElement`, once `subCols`, `subRows`, `variantIndex`, `width`
and the animation values are known. `%` on the (possibly negative) integer `variantIndex` is
the truncating remainder of JavaScript; `Math.floor(a / b)` is the floor of the exact
quotient. -/
def assetLayout (cfg : AtlasConfig) (subCols subRows typeIndex : ℕ) (variantIndex : ℤ)
    (width duration delay : ℚ) (floatV : Bool) (rot : ℤ) : AssetObj :=
  let mainCol : ℕ := typeIndex % cfg.cols
  let mainRow : ℤ := ⌊(typeIndex : ℚ) / (cfg.cols : ℚ)⌋
  let subCol : ℤ := Int.tmod variantIndex subCols
  let subRow : ℤ := ⌊(variantIndex : ℚ) / (subCols : ℚ)⌋
  let height : ℚ := width * ((subCols : ℚ) / (subRows : ℚ))
  let mainCaseSize : ℚ := width * subCols
  let totalWidth : ℚ := mainCaseSize * 4
  let totalHeight : ℚ := mainCaseSize * 4
  let mainOffsetX : ℚ := mainCol * mainCaseSize
  let mainOffsetY : ℚ := mainRow * mainCaseSize
  let subOffsetX : ℚ := subCol * width
  let subOffsetY : ℚ := subRow * height
  let finalX : ℚ := -(mainOffsetX + subOffsetX)
  let finalY : ℚ := -(mainOffsetY + subOffsetY)
  { element :=
      { width := width
        height := height - 4
        imgWidth := totalWidth
        imgHeight := totalHeight
        translateX := finalX - 4
        translateY := finalY - 2
        duration := duration
        delay := delay
        floatV := floatV
        rot := rot
        left := none
        top := none }
    w := width
    h := height }

/-- The method `createAssetElement(typeIndex)`; its six calls of `Math.random()` read
`rand k`, ..., `rand (k + 5)` in source order (variant, scale, duration, delay, direction,
rotation). `none` is the `TypeError` of destructuring `ATLAS_CONFIG.subgrids[typeIndex]` when
that entry is `undefined`. -/
def createAssetElement (cfg : AtlasConfig) (wrapperSize : ℚ) (typeIndex : ℕ)
    (rand : ℕ → ℚ) (k : ℕ) : Option AssetObj :=
  match cfg.subgrids[typeIndex]? with
  | none => none
  | some (subCols, subRows) =>
    let totalVariants : ℕ := subCols * subRows
    let variantIndex : ℤ := ⌊rand k * (totalVariants : ℚ)⌋
    let scale : ℚ := 0.5 + rand (k + 1) * 0.7
    let width : ℚ := wrapperSize * scale
    let duration : ℚ := 15 + rand (k + 2) * 20
    let delay : ℚ := -(rand (k + 3)) * 20
    let floatV : Bool := decide (rand (k + 4) > 0.5)
    let rot : ℤ := ⌊rand (k + 5) * 361⌋
    some (assetLayout cfg subCols subRows typeIndex variantIndex width duration delay floatV rot)

/-! ## Collision test (lines 216-252) -/

/-- The condition of the `if` in the loop of `checkCollision`. -/
def overlapsWithMargin (margin : ℚ) (rect other : Rect) : Prop :=
  rect.x < other.x + other.w + margin ∧
  rect.x + rect.w > other.x - margin ∧
  rect.y < other.y + other.h + margin ∧
  rect.y + rect.h > other.y - margin

instance (margin : ℚ) (rect other : Rect) : Decidable (overlapsWithMargin margin rect other) := by
  unfold overlapsWithMargin; infer_instance

/-- The method `checkCollision(rect)`; `innerWidth`, `innerHeight` are the viewport size read
from `window`. The safe zone is computed and, as in the source (its test is commented out),
not used. -/
def checkCollision (innerWidth innerHeight : ℚ) (placedRects : List Rect) (rect : Rect) : Bool :=
  let margin : ℚ := 20
  let centerX : ℚ := innerWidth / 2
  let centerY : ℚ := innerHeight / 2
  let contentWidth : ℚ := min (innerWidth * 0.9) 1200
  let contentHeight : ℚ := innerHeight * 0.8
  let _safeZone : Rect :=
    { x := centerX - contentWidth / 2
      y := centerY - contentHeight / 2
      w := contentWidth
      h := contentHeight }
  placedRects.any (fun other => decide (overlapsWithMargin margin rect other))

/-! ## The manager and the generation pass (lines 27-62, 254-288) -/

/-- The fields of a `BgAssetManager` instance that the pass reads or writes. `container` is
`none` for `null`, else the list of the children of the container element. -/
structure BgAssetManager where
  container : Option (List AssetElement)
  assets : List AssetElement
  placedRects : List Rect
  maxAssets : ℕ
  wrapperSize : ℚ

/-- The constructor of `BgAssetManager`. -/
def BgAssetManager.constructor : BgAssetManager where
  container := none
  assets := []
  placedRects := []
  maxAssets := 20
  wrapperSize := 100

/-- The state change of `init()`: a fresh, empty container element (timers are not part of this
record). -/
def BgAssetManager.init (s : BgAssetManager) : BgAssetManager :=
  { s with container := some [] }

/-- The locals `attempts`, `count` of `generateAssets`, the two fields the loop mutates
(`placedRects` and the children of the container) and the cursor into the random stream. -/
structure PassState where
  attempts : ℕ
  count : ℕ
  placedRects : List Rect
  children : List AssetElement
  cursor : ℕ

/-- The `while` loop of `generateAssets` (lines 264-287). One iteration makes nine calls of
`Math.random()`: one in `getRandomTypeIndex`, six in `createAssetElement`, then `x` and `y`. -/
def generateLoop (cfg : AtlasConfig) (rand : ℕ → ℚ) (innerWidth innerHeight : ℚ)
    (maxAssets : ℕ) (wrapperSize : ℚ) (maxAttempts : ℕ) (st : PassState) : Option PassState :=
  if st.count < maxAssets ∧ st.attempts < maxAttempts then
    let attempts := st.attempts + 1
    let typeIndex := getRandomTypeIndex cfg (rand st.cursor)
    match createAssetElement cfg wrapperSize typeIndex rand (st.cursor + 1) with
    | none => none
    | some assetObj =>
      let x : ℚ := rand (st.cursor + 7) * (innerWidth - assetObj.w)
      let y : ℚ := rand (st.cursor + 8) * (innerHeight - assetObj.h)
      let rect : Rect := { x := x, y := y, w := assetObj.w, h := assetObj.h }
      if !checkCollision innerWidth innerHeight st.placedRects rect then
        generateLoop cfg rand innerWidth innerHeight maxAssets wrapperSize maxAttempts
          { attempts := attempts
            count := st.count + 1
            placedRects := st.placedRects ++ [rect]
            children := st.children ++ [{ assetObj.element with left := some x, top := some y }]
            cursor := st.cursor + 9 }
      else
        generateLoop cfg rand innerWidth innerHeight maxAssets wrapperSize maxAttempts
          { st with attempts := attempts, cursor := st.cursor + 9 }
  else some st
termination_by maxAttempts - st.attempts
decreasing_by all_goals simp_wf; omega

/-- What a call of `generateAssets` leaves behind: the manager, and the final values of the
locals `attempts` and `count` (both 0 when the method returns at its first line). -/
structure PassResult where
  manager : BgAssetManager
  attempts : ℕ
  count : ℕ

/-- The constant `maxAttempts` of `generateAssets`. -/
def maxAttempts : ℕ := 1000

/-- The method `generateAssets()` run on manager state `s` with random stream `rand` (read
from position 0) and viewport `innerWidth` x `innerHeight`. `none` is a thrown `TypeError`. -/
def generateAssets (cfg : AtlasConfig) (rand : ℕ → ℚ) (innerWidth innerHeight : ℚ)
    (s : BgAssetManager) : Option PassResult :=
  match s.container with
  | none => some { manager := s, attempts := 0, count := 0 }
  | some _ =>
    match generateLoop cfg rand innerWidth innerHeight s.maxAssets s.wrapperSize maxAttempts
        { attempts := 0, count := 0, placedRects := [], children := [], cursor := 0 } with
    | none => none
    | some st =>
      some { manager := { s with container := some st.children, assets := [],
                                 placedRects := st.placedRects }
             attempts := st.attempts
             count := st.count }

/-! ## Timers and resize events (lines 53-61) -/

/-- A timer created by `setTimeout(() => this.generateAssets(), delay)`: its identifier, the
delay in milliseconds it was created with, and the time from which it may fire. -/
structure Timer where
  id : ℕ
  delay : ℕ
  due : ℕ
deriving DecidableEq

/-- The manager in its page: the time in milliseconds, the next timer identifier of the
browser, the timers that are scheduled and have neither run nor been cleared, and the field
`_resizeTimer` (`none` for `undefined`). -/
structure Page where
  manager : BgAssetManager
  now : ℕ
  nextTimerId : ℕ
  pending : List Timer
  resizeTimer : Option ℕ

/-- The call `setTimeout(() => this.generateAssets(), delay)`; it returns the identifier
`p.nextTimerId`. -/
def Page.setTimeout (p : Page) (delay : ℕ) : Page :=
  { p with
    pending := p.pending ++ [{ id := p.nextTimerId, delay := delay, due := p.now + delay }]
    nextTimerId := p.nextTimerId + 1 }

/-- The call `clearTimeout(id)`; clearing `undefined` or a timer that has run does nothing. -/
def Page.clearTimeout (p : Page) (id : Option ℕ) : Page :=
  match id with
  | none => p
  | some i => { p with pending := p.pending.filter (fun τ => decide (τ.id ≠ i)) }

/-- The page at time `t0`, after `window.bgAssets = new BgAssetManager()`. -/
def Page.load (t0 : ℕ) : Page :=
  { manager := BgAssetManager.constructor, now := t0, nextTimerId := 1, pending := [],
    resizeTimer := none }

/-- The method `init()` in the page: the container is created, a first pass is scheduled
100 ms later (its identifier is not stored) and the resize listener is registered. -/
def Page.init (p : Page) : Page :=
  Page.setTimeout { p with manager := p.manager.init } 100

/-- The resize listener (lines 57-61): clear `this._resizeTimer`, then schedule a pass 500 ms
later and store its identifier in `this._resizeTimer`. -/
def Page.onResize (p : Page) : Page :=
  { Page.setTimeout (Page.clearTimeout p p.resizeTimer) 500 with
    resizeTimer := some (Page.clearTimeout p p.resizeTimer).nextTimerId }

/-- One step of the page after `init()`: a resize event at a time `t`, or a pending timer
firing at a time `t` not before it is due, which runs `generateAssets()`. -/
inductive Step : Page → Page → Prop
  | resize (p : Page) (t : ℕ) (ht : p.now ≤ t) :
      Step p (Page.onResize { p with now := t })
  | timer (p : Page) (τ : Timer) (t : ℕ) (rand : ℕ → ℚ) (innerWidth innerHeight : ℚ)
      (res : PassResult) (hτ : τ ∈ p.pending) (ht : p.now ≤ t) (hdue : τ.due ≤ t)
      (hrun : generateAssets ATLAS_CONFIG rand innerWidth innerHeight p.manager = some res) :
      Step p { p with now := t, pending := p.pending.erase τ, manager := res.manager }

/-- The pages reached from a page on which `init()` was called at some time `t0`. -/
def PageReachable (p : Page) : Prop :=
  ∃ t0, Relation.ReflTransGen Step (Page.load t0).init p

/-! ## Notions used to state the properties -/

/-- The sum of the first `n` weights. -/
def runningSum (weights : List ℚ) (n : ℕ) : ℚ :=
  (weights.take n).sum

/-- The state after an attempt whose rectangle was accepted (lines 277-285). -/
def acceptState (st : PassState) (assetObj : AssetObj) (x y : ℚ) : PassState :=
  { attempts := st.attempts + 1
    count := st.count + 1
    placedRects := st.placedRects ++ [{ x := x, y := y, w := assetObj.w, h := assetObj.h }]
    children := st.children ++ [{ assetObj.element with left := some x, top := some y }]
    cursor := st.cursor + 9 }

/-- The state after an attempt whose rectangle was rejected. -/
def rejectState (st : PassState) : PassState :=
  { st with attempts := st.attempts + 1, cursor := st.cursor + 9 }

/-- The rectangle `r` grown by `m` on all four sides. -/
def expand (r : Rect) (m : ℚ) : Rect :=
  { x := r.x - m, y := r.y - m, w := r.w + 2 * m, h := r.h + 2 * m }

/-- Two axis-aligned rectangles intersect (their interiors meet). -/
def intersects (a b : Rect) : Prop :=
  a.x < b.x + b.w ∧ b.x < a.x + a.w ∧ a.y < b.y + b.h ∧ b.y < a.y + a.h

/-- The relation `no-overlap-with-margin`: growing either rectangle by the margin still does not
make it intersect the other. -/
def SeparatedWithMargin (m : ℚ) (a b : Rect) : Prop :=
  ¬ intersects (expand a m) b ∧ ¬ intersects (expand b m) a

/-- The invariant of the loop of `generateAssets`. -/
def PassInv (maxAssets maxAttempts : ℕ) (st : PassState) : Prop :=
  st.count = st.placedRects.length ∧ st.count ≤ maxAssets ∧ st.attempts ≤ maxAttempts ∧
    st.placedRects.Pairwise (SeparatedWithMargin 20)

/-- The states a manager can be in: built by the constructor, then changed only by `init()`
and by calls of `generateAssets()` (with any random stream and viewport). -/
inductive Reachable : BgAssetManager → Prop
  | construct : Reachable BgAssetManager.constructor
  | init (s : BgAssetManager) : Reachable s → Reachable s.init
  | generate (s : BgAssetManager) (rand : ℕ → ℚ) (innerWidth innerHeight : ℚ)
      (res : PassResult) : Reachable s →
      generateAssets ATLAS_CONFIG rand innerWidth innerHeight s = some res →
      Reachable res.manager

/-- The region of the scaled atlas image, in image coordinates, that an element shows: the
clip window `[0, width] x [0, height]` of the wrapper (`overflow: hidden`) seen through the
translation `(translateX, translateY)` applied to the image. -/
def visibleRegion (e : AssetElement) : Rect :=
  { x := -e.translateX, y := -e.translateY, w := e.width, h := e.height }

/-- A rectangle lies within the scaled atlas image `[0, imgWidth] x [0, imgHeight]` of `e`. -/
def withinAtlas (e : AssetElement) (r : Rect) : Prop :=
  0 ≤ r.x ∧ r.x + r.w ≤ e.imgWidth ∧ 0 ≤ r.y ∧ r.y + r.h ≤ e.imgHeight

/-- The element laid out for category 5 (sub-grid 4 x 3), variant 2, width 60. -/
def sampleElement : AssetElement :=
  (assetLayout ATLAS_CONFIG 4 3 5 2 60 20 (-5) false 90).element

/-- The invariant of the timers: a pending timer is the first pass of `init()` (delay 100)
or the timer recorded in `_resizeTimer` (delay 500), with at most one of each. -/
def TimerInv (p : Page) : Prop :=
  (∀ τ ∈ p.pending, τ.delay = 100 ∨ (τ.delay = 500 ∧ p.resizeTimer = some τ.id)) ∧
  p.pending.countP (fun τ => decide (τ.delay = 100)) ≤ 1 ∧
  p.pending.countP (fun τ => decide (τ.delay = 500)) ≤ 1

/-- The weights are natural numbers whose total is at most `2 ^ 53`. -/
def NaturalWeights (weights : List ℚ) : Prop :=
  (∀ w ∈ weights, ∃ n : ℕ, w = (n : ℚ)) ∧ totalWeight weights ≤ 2 ^ (53 : ℕ)

/-- The binary64 values of the weights 0.2, 0.4 and 0.15. -/
def fractionalWeights : List ℚ :=
  [3602879701896397 / 2 ^ 54, 3602879701896397 / 2 ^ 53, 5404319552844595 / 2 ^ 55]

/-- A configuration of three categories with the weights 0.2, 0.4 and 0.15. -/
def fractionalConfig : AtlasConfig :=
  { cols := 3, rows := 1, subgrids := [(1, 1), (1, 1), (1, 1)], weights := fractionalWeights }

/-- A random stream on which a pass places two rectangles: every draw is 1/10, except the
horizontal position of the second attempt, which is 9/10. -/
def twoPlacedStream (n : ℕ) : ℚ :=
  if n = 16 then 9 / 10 else 1 / 10

/-! ## Facts about the category selector -/

theorem totalWeight_eq_sum (weights : List ℚ) : totalWeight weights = weights.sum := by
  unfold totalWeight
  rw [List.sum_eq_foldl]

theorem runningSum_zero (weights : List ℚ) : runningSum weights 0 = 0 := by
  simp [runningSum]

theorem runningSum_cons_succ (w : ℚ) (ws : List ℚ) (n : ℕ) :
    runningSum (w :: ws) (n + 1) = w + runningSum ws n := by
  simp [runningSum]

theorem runningSum_succ (weights : List ℚ) (i : ℕ) (hi : i < weights.length) :
    runningSum weights (i + 1) = runningSum weights i + weights[i] := by
  unfold runningSum
  exact List.sum_take_succ weights i hi

theorem runningSum_mono (weights : List ℚ) (hnn : ∀ w ∈ weights, 0 ≤ w) {m n : ℕ}
    (hmn : m ≤ n) : runningSum weights m ≤ runningSum weights n := by
  unfold runningSum
  apply List.Sublist.sum_le_sum (List.take_sublist_take_left weights hmn)
  intro a ha
  exact hnn a (List.mem_of_mem_take ha)

theorem runningSum_le_total (weights : List ℚ) (hnn : ∀ w ∈ weights, 0 ≤ w) (n : ℕ) :
    runningSum weights n ≤ totalWeight weights := by
  rw [totalWeight_eq_sum]
  unfold runningSum
  exact List.Sublist.sum_le_sum (List.take_sublist n weights) hnn

theorem runningSum_nonneg (weights : List ℚ) (hnn : ∀ w ∈ weights, 0 ≤ w) (n : ℕ) :
    0 ≤ runningSum weights n := by
  have h := runningSum_mono weights hnn (Nat.zero_le n)
  rwa [runningSum_zero] at h

/-- The walk entered at index `k` returns `k + j` exactly when `j` is the first position at
which the remainder `u - (w₀ + ... + w_j)` is `<= 0`. -/
theorem walk_eq_some_iff (ws : List ℚ) (u : ℚ) (k i : ℕ) :
    walk ws u k = some i ↔
      ∃ j, i = k + j ∧ j < ws.length ∧ u ≤ runningSum ws (j + 1) ∧
        ∀ m, m < j → runningSum ws (m + 1) < u := by
  induction ws generalizing u k with
  | nil => simp [walk]
  | cons w ws ih =>
    unfold walk
    by_cases h : u - w ≤ 0
    · simp only [h, if_true, Option.some.injEq]
      constructor
      · intro hk
        refine ⟨0, by omega, by simp, ?_, ?_⟩
        · rw [runningSum_cons_succ, runningSum_zero]; linarith
        · intro m hm; omega
      · rintro ⟨j, hj, _, _, hall⟩
        rcases Nat.eq_zero_or_pos j with h0 | hpos
        · omega
        · have := hall 0 hpos
          rw [runningSum_cons_succ, runningSum_zero] at this
          linarith
    · simp only [h, if_false]
      rw [ih]
      constructor
      · rintro ⟨j, hj, hlen, hle, hall⟩
        refine ⟨j + 1, by omega, by simpa using hlen, ?_, ?_⟩
        · rw [runningSum_cons_succ]; linarith
        · intro m hm
          rcases Nat.eq_zero_or_pos m with h0 | hpos
          · subst h0
            rw [runningSum_cons_succ, runningSum_zero]; linarith
          · obtain ⟨m1, rfl⟩ : ∃ m1, m = m1 + 1 := ⟨m - 1, by omega⟩
            have := hall m1 (by omega)
            rw [runningSum_cons_succ]; linarith
      · rintro ⟨j, hj, hlen, hle, hall⟩
        rcases Nat.eq_zero_or_pos j with h0 | hpos
        · subst h0
          rw [runningSum_cons_succ, runningSum_zero] at hle
          exfalso; apply h; linarith
        · obtain ⟨j1, rfl⟩ : ∃ j1, j = j1 + 1 := ⟨j - 1, by omega⟩
          refine ⟨j1, by omega, by simpa using hlen, ?_, ?_⟩
          · rw [runningSum_cons_succ] at hle; linarith
          · intro m hm
            have := hall (m + 1) (by omega)
            rw [runningSum_cons_succ] at this; linarith

/-- A draw that does not exceed the total weight of a non-empty list is caught inside the
walk. -/
theorem walk_isSome (ws : List ℚ) (u : ℚ) (k : ℕ) (hne : ws ≠ []) (hu : u ≤ ws.sum) :
    ∃ i, walk ws u k = some i ∧ k ≤ i ∧ i < k + ws.length := by
  induction ws generalizing u k with
  | nil => exact absurd rfl hne
  | cons w ws ih =>
    unfold walk
    by_cases h : u - w ≤ 0
    · exact ⟨k, by simp [h], le_refl k, by simp⟩
    · simp only [h, if_false]
      have hu1 : u - w ≤ ws.sum := by
        rw [List.sum_cons] at hu; linarith
      have hne1 : ws ≠ [] := by
        rintro rfl
        rw [List.sum_nil] at hu1
        exact h hu1
      obtain ⟨i, hi, hki, hlt⟩ := ih (u - w) (k + 1) hne1 hu1
      exact ⟨i, hi, by omega, by simp only [List.length_cons]; omega⟩

/-- Inside its domain the selector returns `i` exactly when the draw lies between the running
sums before and after `i`, in the sense of the walk. -/
theorem selectIndex_eq_iff (weights : List ℚ) (u : ℚ) (i : ℕ) (hne : weights ≠ [])
    (hu : u ≤ totalWeight weights) :
    selectIndex weights u = i ↔
      i < weights.length ∧ u ≤ runningSum weights (i + 1) ∧
        ∀ m, m < i → runningSum weights (m + 1) < u := by
  rw [totalWeight_eq_sum] at hu
  obtain ⟨i0, hi0, _, _⟩ := walk_isSome weights u 0 hne hu
  have hsel : selectIndex weights u = i0 := by simp [selectIndex, hi0]
  rw [hsel]
  constructor
  · rintro rfl
    obtain ⟨j, hj, h1, h2, h3⟩ := (walk_eq_some_iff weights u 0 i0).1 hi0
    have : j = i0 := by omega
    subst this
    exact ⟨h1, h2, h3⟩
  · rintro ⟨h1, h2, h3⟩
    have : walk weights u 0 = some i := (walk_eq_some_iff weights u 0 i).2 ⟨i, by omega, h1, h2, h3⟩
    rw [hi0] at this
    exact Option.some.inj this

/-- With non-negative weights, the index selected for a draw `0 <= u <= total` carries a
strictly positive weight as soon as the draw is positive or the first weight is positive. -/
theorem selectIndex_weight_pos (weights : List ℚ) (u : ℚ) (hne : weights ≠ [])
    (hnn : ∀ w ∈ weights, 0 ≤ w) (hu : u ≤ totalWeight weights)
    (hpos : 0 < u ∨ 0 < weights.headD 0) :
    ∃ h : selectIndex weights u < weights.length, 0 < weights[selectIndex weights u] := by
  obtain ⟨hlt, hle, hall⟩ := (selectIndex_eq_iff weights u _ hne hu).1 rfl
  refine ⟨hlt, ?_⟩
  generalize selectIndex weights u = i at hlt hle hall
  rw [runningSum_succ weights i hlt] at hle
  rcases Nat.eq_zero_or_pos i with hi | hi
  · subst hi
    rw [runningSum_zero] at hle
    rcases hpos with hp | hp
    · linarith
    · cases weights with
      | nil => exact absurd rfl hne
      | cons w ws => simpa using hp
  · obtain ⟨m, rfl⟩ : ∃ m, i = m + 1 := ⟨i - 1, by omega⟩
    have := hall m (by omega)
    linarith

/-- The shipped weight vector is well formed. -/
theorem ATLAS_CONFIG_wellFormed : WellFormedWeights ATLAS_CONFIG.weights := by
  refine ⟨by simp [ATLAS_CONFIG], ?_, by norm_num [ATLAS_CONFIG, totalWeight]⟩
  intro w hw
  simp only [ATLAS_CONFIG, List.mem_cons, List.mem_singleton, List.not_mem_nil, or_false] at hw
  rcases hw with h | h | h | h | h | h | h | h | h | h | h | h | h | h | h | h <;>
    (subst h; norm_num)

theorem ATLAS_CONFIG_totalWeight : totalWeight ATLAS_CONFIG.weights = 96 := by
  norm_num [ATLAS_CONFIG, totalWeight]

/-- On exact numbers, with non-negative weights: a draw strictly between the running sums
before and after `i` selects `i`, and a draw in `[0, total)` that selects `i` lies between
them. -/
theorem selectIndex_between (weights : List ℚ) (hne : weights ≠ [])
    (hnn : ∀ w ∈ weights, 0 ≤ w) (i : ℕ) (hi : i < weights.length) (u : ℚ) :
    (runningSum weights i < u ∧ u < runningSum weights (i + 1) →
        0 ≤ u ∧ u < totalWeight weights ∧ selectIndex weights u = i) ∧
      (0 ≤ u ∧ u < totalWeight weights ∧ selectIndex weights u = i →
        runningSum weights i ≤ u ∧ u ≤ runningSum weights (i + 1)) := by
  constructor
  · rintro ⟨h1, h2⟩
    have hlt : u < totalWeight weights :=
      lt_of_lt_of_le h2 (runningSum_le_total weights hnn _)
    refine ⟨le_trans (runningSum_nonneg weights hnn i) h1.le, hlt, ?_⟩
    rw [selectIndex_eq_iff weights u i hne hlt.le]
    refine ⟨hi, h2.le, fun m hm => ?_⟩
    exact lt_of_le_of_lt (runningSum_mono weights hnn (by omega)) h1
  · rintro ⟨h0, hlt, hsel⟩
    obtain ⟨_, hle, hall⟩ := (selectIndex_eq_iff weights u i hne hlt.le).1 hsel
    refine ⟨?_, hle⟩
    rcases Nat.eq_zero_or_pos i with h | h
    · subst h; rw [runningSum_zero]; exact h0
    · obtain ⟨m, rfl⟩ : ∃ m, i = m + 1 := ⟨i - 1, by omega⟩
      exact (hall m (by omega)).le

/-! ## Facts about binary64 rounding -/

theorem roundHalfEven_floor_le (q : ℚ) : ⌊q⌋ ≤ roundHalfEven q := by
  unfold roundHalfEven
  split_ifs <;> omega

theorem roundHalfEven_le_floor_succ (q : ℚ) : roundHalfEven q ≤ ⌊q⌋ + 1 := by
  unfold roundHalfEven
  split_ifs <;> omega

theorem roundHalfEven_le_of_le (q : ℚ) (M : ℤ) (h : q ≤ (M : ℚ)) : roundHalfEven q ≤ M := by
  have hfl : ⌊q⌋ ≤ M := by
    have h1 : ((⌊q⌋ : ℤ) : ℚ) ≤ (M : ℚ) := le_trans (Int.floor_le q) h
    exact_mod_cast h1
  by_cases hq : q - ⌊q⌋ < 1 / 2
  · simp only [roundHalfEven, hq, if_true]
    exact hfl
  · have hne : ⌊q⌋ ≠ M := by
      intro heq
      rw [heq] at hq
      apply hq
      linarith
    have := roundHalfEven_le_floor_succ q
    omega

theorem roundHalfEven_ge_of_ge (q : ℚ) (M : ℤ) (h : (M : ℚ) ≤ q) : M ≤ roundHalfEven q :=
  le_trans (Int.le_floor.2 h) (roundHalfEven_floor_le q)

theorem roundHalfEven_intCast (n : ℤ) : roundHalfEven (n : ℚ) = n := by
  simp [roundHalfEven]

theorem two_zpow_pos (e : ℤ) : (0 : ℚ) < 2 ^ e := zpow_pos (by norm_num) e

theorem roundDouble_nonneg (x : ℚ) (h : 0 ≤ x) : 0 ≤ roundDouble x := by
  unfold roundDouble
  have hq : ((0 : ℤ) : ℚ) ≤ x / 2 ^ ulpExponent x := by
    simpa using div_nonneg h (two_zpow_pos _).le
  have := roundHalfEven_ge_of_ge _ 0 hq
  exact mul_nonneg (by exact_mod_cast this) (two_zpow_pos _).le

theorem roundDouble_nonpos (x : ℚ) (h : x ≤ 0) : roundDouble x ≤ 0 := by
  unfold roundDouble
  have hq : x / 2 ^ ulpExponent x ≤ ((0 : ℤ) : ℚ) := by
    simpa using div_nonpos_of_nonpos_of_nonneg h (two_zpow_pos _).le
  have := roundHalfEven_le_of_le _ 0 hq
  exact mul_nonpos_of_nonpos_of_nonneg (by exact_mod_cast this) (two_zpow_pos _).le

theorem ulpExponent_ge (x : ℚ) : -1074 ≤ ulpExponent x := le_max_right _ _

/-- A binary64 number is not changed by rounding. -/
theorem roundDouble_of_isDouble (x : ℚ) (h : IsDouble x) : roundDouble x = x := by
  obtain ⟨m, e, he, hm, rfl⟩ := h
  by_cases hm0 : m = 0
  · subst hm0
    simp [roundDouble, roundHalfEven]
  have hpos : (0 : ℚ) < |(m : ℚ) * 2 ^ e| := by
    rw [abs_pos]
    exact mul_ne_zero (by exact_mod_cast hm0) (two_zpow_pos e).ne.symm
  -- the exponent of the unit in the last place is at most `e`
  have hlog : Int.log 2 |(m : ℚ) * 2 ^ e| < e + 53 := by
    rw [← Int.lt_zpow_iff_log_lt (by norm_num) hpos]
    rw [Nat.cast_ofNat, abs_mul, abs_of_pos (two_zpow_pos e),
      zpow_add₀ (by norm_num : (2 : ℚ) ≠ 0), mul_comm]
    apply mul_lt_mul_of_pos_left _ (two_zpow_pos e)
    have : |(m : ℚ)| < 2 ^ (53 : ℕ) := by exact_mod_cast hm
    rw [← zpow_natCast] at this
    exact this
  have hE : ulpExponent ((m : ℚ) * 2 ^ e) ≤ e := by
    unfold ulpExponent
    exact max_le (by omega) he
  obtain ⟨k, hk⟩ : ∃ k : ℕ, e = ulpExponent ((m : ℚ) * 2 ^ e) + k :=
    ⟨(e - ulpExponent ((m : ℚ) * 2 ^ e)).toNat, by omega⟩
  unfold roundDouble
  generalize ulpExponent ((m : ℚ) * 2 ^ e) = E at hk
  subst hk
  have hq : (m : ℚ) * 2 ^ (E + (k : ℤ)) / 2 ^ E = ((m * 2 ^ k : ℤ) : ℚ) := by
    rw [zpow_add₀ (by norm_num : (2 : ℚ) ≠ 0), zpow_natCast]
    field_simp
    ring
  rw [hq, roundHalfEven_intCast, zpow_add₀ (by norm_num : (2 : ℚ) ≠ 0), zpow_natCast]
  push_cast
  ring


/-- A natural number up to `2 ^ 53` is a binary64 number. -/
theorem isDouble_natCast (N : ℕ) (h : N ≤ 2 ^ 53) : IsDouble (N : ℚ) := by
  rcases Nat.lt_or_ge N (2 ^ 53) with hlt | hge
  · refine ⟨(N : ℤ), 0, by norm_num, ?_, by simp⟩
    rw [abs_of_nonneg (Int.natCast_nonneg N)]
    exact_mod_cast hlt
  · have hN : N = 2 ^ 53 := le_antisymm h hge
    refine ⟨2 ^ 52, 1, by norm_num, by norm_num, ?_⟩
    rw [hN]
    norm_num

/-- The magnitude of `x` in units in the last place is below `2 ^ 53`. -/
theorem abs_div_ulp_lt (x : ℚ) : |x / 2 ^ ulpExponent x| < 2 ^ (53 : ℕ) := by
  rw [abs_div, abs_of_pos (two_zpow_pos _), div_lt_iff₀ (two_zpow_pos _)]
  have h1 : |x| < 2 ^ (Int.log 2 |x| + 1) := by
    have := Int.lt_zpow_succ_log_self (R := ℚ) (b := 2) (by norm_num) |x|
    simpa using this
  have h2 : (2 : ℚ) ^ (Int.log 2 |x| + 1) ≤ 2 ^ (53 : ℕ) * 2 ^ ulpExponent x := by
    rw [← zpow_natCast, ← zpow_add₀ (by norm_num : (2 : ℚ) ≠ 0)]
    apply zpow_le_zpow_right₀ (by norm_num)
    have : Int.log 2 |x| - 52 ≤ ulpExponent x := le_max_left _ _
    push_cast
    omega
  exact lt_of_lt_of_le h1 h2

/-- The result of a rounding is a binary64 number. -/
theorem isDouble_roundDouble (x : ℚ) : IsDouble (roundDouble x) := by
  have habs := abs_div_ulp_lt x
  rw [abs_lt] at habs
  have hup : roundHalfEven (x / 2 ^ ulpExponent x) ≤ 2 ^ 53 :=
    roundHalfEven_le_of_le _ _ (by push_cast; exact habs.2.le)
  have hlo : -(2 ^ 53) ≤ roundHalfEven (x / 2 ^ ulpExponent x) :=
    roundHalfEven_ge_of_ge _ _ (by push_cast; exact habs.1.le)
  unfold roundDouble
  generalize roundHalfEven (x / 2 ^ ulpExponent x) = n at hup hlo
  have hE := ulpExponent_ge x
  generalize ulpExponent x = E at hE
  by_cases h1 : n = 2 ^ 53
  · refine ⟨2 ^ 52, E + 1, by omega, by norm_num, ?_⟩
    rw [h1, zpow_add₀ (by norm_num : (2 : ℚ) ≠ 0)]
    norm_num
    ring
  by_cases h2 : n = -(2 ^ 53)
  · refine ⟨-(2 ^ 52), E + 1, by omega, by norm_num, ?_⟩
    rw [h2, zpow_add₀ (by norm_num : (2 : ℚ) ≠ 0)]
    norm_num
    ring
  · refine ⟨n, E, hE, ?_, rfl⟩
    rw [abs_lt]
    constructor <;> omega

/-- Rounding does not carry a number over a natural number up to `2 ^ 53` above it. -/
theorem roundDouble_le_natCast (x : ℚ) (N : ℕ) (hN : N ≤ 2 ^ 53) (h : x ≤ (N : ℚ)) :
    roundDouble x ≤ (N : ℚ) := by
  rcases le_or_lt x 0 with hx | hx
  · exact le_trans (roundDouble_nonpos x hx) (Nat.cast_nonneg N)
  have hNq : (N : ℚ) ≤ 2 ^ (53 : ℕ) := by exact_mod_cast hN
  rcases lt_or_ge x (2 ^ (53 : ℕ)) with hlt | hge
  · have hlog : Int.log 2 |x| < 53 := by
      have h53 : (2 : ℚ) ^ (53 : ℤ) = 2 ^ (53 : ℕ) := by norm_num
      rw [← Int.lt_zpow_iff_log_lt (by norm_num) (abs_pos.2 hx.ne.symm), abs_of_pos hx,
        Nat.cast_ofNat, h53]
      exact hlt
    have hE : ulpExponent x ≤ 0 := max_le (by omega) (by norm_num)
    obtain ⟨k, hk⟩ : ∃ k : ℕ, ulpExponent x = -(k : ℤ) := ⟨(-ulpExponent x).toNat, by omega⟩
    unfold roundDouble
    rw [hk, zpow_neg, zpow_natCast]
    have h2k : (0 : ℚ) < 2 ^ k := by positivity
    have hq : x / (2 ^ k)⁻¹ ≤ ((N * 2 ^ k : ℤ) : ℚ) := by
      rw [div_inv_eq_mul]
      push_cast
      exact mul_le_mul_of_nonneg_right h h2k.le
    have hr := roundHalfEven_le_of_le _ _ hq
    have hr1 : (roundHalfEven (x / (2 ^ k)⁻¹) : ℚ) ≤ (N : ℚ) * 2 ^ k := by exact_mod_cast hr
    calc (roundHalfEven (x / (2 ^ k)⁻¹) : ℚ) * (2 ^ k)⁻¹
        ≤ ((N : ℚ) * 2 ^ k) * (2 ^ k)⁻¹ :=
          mul_le_mul_of_nonneg_right hr1 (inv_nonneg.2 h2k.le)
      _ = N := by field_simp
  · have hx53 : x = (N : ℚ) := le_antisymm h (le_trans hNq hge)
    rw [hx53, roundDouble_of_isDouble _ (isDouble_natCast N hN)]

/-- Subtracting a natural number from a larger binary64 number up to `2 ^ 53` gives a binary64
number: the subtraction of JavaScript is exact there. -/
theorem isDouble_sub_natCast (x : ℚ) (w : ℕ) (hx : IsDouble x) (hlt : (w : ℚ) < x)
    (hle : x ≤ 2 ^ (53 : ℕ)) : IsDouble (x - (w : ℚ)) := by
  rcases Nat.eq_zero_or_pos w with hw | hw
  · subst hw; simpa using hx
  obtain ⟨m, e, he, hm, rfl⟩ := hx
  have hw1 : (1 : ℚ) ≤ (w : ℚ) := by exact_mod_cast hw
  rcases le_or_lt 0 e with hpos | hneg
  · -- `x` is an integer
    obtain ⟨k, rfl⟩ : ∃ k : ℕ, e = (k : ℤ) := ⟨e.toNat, by omega⟩
    refine ⟨m * 2 ^ k - w, 0, by norm_num, ?_, by rw [zpow_natCast]; push_cast; ring⟩
    rw [zpow_natCast] at hlt hle
    have h1 : ((w : ℤ) : ℚ) < ((m * 2 ^ k : ℤ) : ℚ) := by push_cast; exact hlt
    have h2 : ((m * 2 ^ k : ℤ) : ℚ) ≤ ((2 ^ 53 : ℤ) : ℚ) := by push_cast; exact hle
    have h1z : (w : ℤ) < m * 2 ^ k := by exact_mod_cast h1
    have h2z : m * 2 ^ k ≤ 2 ^ 53 := by exact_mod_cast h2
    rw [abs_lt]
    constructor <;> omega
  · obtain ⟨k, rfl⟩ : ∃ k : ℕ, e = -(k : ℤ) := ⟨(-e).toNat, by omega⟩
    have h2k : (0 : ℚ) < 2 ^ k := by positivity
    refine ⟨m - w * 2 ^ k, -(k : ℤ), he, ?_, ?_⟩
    · rw [zpow_neg, zpow_natCast] at hlt
      have h1 : ((w * 2 ^ k : ℤ) : ℚ) < (m : ℚ) := by
        push_cast
        have := mul_lt_mul_of_pos_right hlt h2k
        rwa [mul_assoc, inv_mul_cancel₀ h2k.ne.symm, mul_one] at this
      have h1z : (w : ℤ) * 2 ^ k < m := by exact_mod_cast h1
      have hwk : (0 : ℤ) ≤ (w : ℤ) * 2 ^ k := by positivity
      rw [abs_lt] at hm ⊢
      constructor <;> omega
    · rw [zpow_neg, zpow_natCast]
      push_cast
      field_simp
      ring


theorem foldl_roundDouble_natural (weights : List ℚ) (acc : ℕ)
    (hnat : ∀ w ∈ weights, ∃ n : ℕ, w = (n : ℚ))
    (hsum : (acc : ℚ) + weights.sum ≤ 2 ^ (53 : ℕ)) :
    weights.foldl (fun sum w => roundDouble (sum + w)) (acc : ℚ) = (acc : ℚ) + weights.sum := by
  induction weights generalizing acc with
  | nil => simp
  | cons w ws ih =>
    obtain ⟨n, rfl⟩ := hnat _ (List.mem_cons_self _ _)
    have hnat1 : ∀ v ∈ ws, ∃ k : ℕ, v = (k : ℚ) := fun v hv => hnat v (List.mem_cons_of_mem _ hv)
    have hws : 0 ≤ ws.sum := by
      apply List.sum_nonneg
      intro v hv
      obtain ⟨k, rfl⟩ := hnat1 v hv
      exact Nat.cast_nonneg k
    rw [List.sum_cons] at hsum
    have hle : ((acc + n : ℕ) : ℚ) ≤ 2 ^ (53 : ℕ) := by push_cast; linarith
    have hle1 : acc + n ≤ 2 ^ 53 := by exact_mod_cast hle
    have hstep : roundDouble ((acc : ℚ) + (n : ℚ)) = ((acc + n : ℕ) : ℚ) := by
      rw [← Nat.cast_add]
      exact roundDouble_of_isDouble _ (isDouble_natCast _ hle1)
    rw [List.foldl_cons, hstep, ih (acc + n) hnat1 (by push_cast; linarith), List.sum_cons]
    push_cast
    ring

/-- For natural weights the rounded total is the exact total. -/
theorem totalWeightDouble_natural (weights : List ℚ) (h : NaturalWeights weights) :
    totalWeightDouble weights = totalWeight weights := by
  have hsum := h.2
  rw [totalWeight_eq_sum] at hsum ⊢
  have := foldl_roundDouble_natural weights 0 h.1 (by simpa using hsum)
  simpa [totalWeightDouble] using this

/-- For natural weights and a binary64 draw up to `2 ^ 53`, the loop on binary64 numbers
behaves as the loop on exact numbers: every subtraction that lets the loop go on is exact. -/
theorem walkDouble_eq_walk (weights : List ℚ) (hnat : ∀ w ∈ weights, ∃ n : ℕ, w = (n : ℚ))
    (u : ℚ) (k : ℕ) (hu : IsDouble u) (hle : u ≤ 2 ^ (53 : ℕ)) :
    walkDouble weights u k = walk weights u k := by
  induction weights generalizing u k with
  | nil => rfl
  | cons w ws ih =>
    obtain ⟨n, rfl⟩ := hnat _ (List.mem_cons_self _ _)
    have hnat1 : ∀ v ∈ ws, ∃ j : ℕ, v = (j : ℚ) := fun v hv => hnat v (List.mem_cons_of_mem _ hv)
    unfold walkDouble walk
    by_cases h : u - (n : ℚ) ≤ 0
    · have h1 := roundDouble_nonpos _ h
      simp only [h, h1, if_true]
    · have hlt : (n : ℚ) < u := by linarith
      have hd := isDouble_sub_natCast u n hu hlt hle
      have hexact := roundDouble_of_isDouble _ hd
      simp only [hexact, h, if_false]
      exact ih hnat1 _ _ hd (by linarith [Nat.cast_nonneg (α := ℚ) n])

theorem walkDouble_lt (ws : List ℚ) (u : ℚ) (k i : ℕ) (h : walkDouble ws u k = some i) :
    i < k + ws.length := by
  induction ws generalizing u k with
  | nil => simp [walkDouble] at h
  | cons w ws ih =>
    unfold walkDouble at h
    simp only at h
    split_ifs at h with hc
    · cases h; simp
    · have := ih _ _ h
      simp only [List.length_cons]
      omega

/-- Whatever the draw, the selector on binary64 numbers returns an index of a non-empty weight
vector (the fallback index 0 included). -/
theorem selectIndexDouble_lt_length (weights : List ℚ) (u : ℚ) (hne : weights ≠ []) :
    selectIndexDouble weights u < weights.length := by
  unfold selectIndexDouble
  cases h : walkDouble weights u 0 with
  | none => exact List.length_pos.2 hne
  | some i => simpa using walkDouble_lt weights u 0 i h

/-- The draw that the code computes for natural weights with a positive total and a value of
`Math.random()` in `[0, 1)`: a binary64 number between 0 and the total. -/
theorem draw_natural (weights : List ℚ) (h : NaturalWeights weights) (r : ℚ) (h0 : 0 ≤ r)
    (h1 : r < 1) (hpos : 0 < totalWeight weights) :
    IsDouble (roundDouble (r * totalWeightDouble weights)) ∧
    0 ≤ roundDouble (r * totalWeightDouble weights) ∧
    roundDouble (r * totalWeightDouble weights) ≤ totalWeight weights := by
  rw [totalWeightDouble_natural weights h]
  refine ⟨isDouble_roundDouble _, roundDouble_nonneg _ (mul_nonneg h0 hpos.le), ?_⟩
  -- the total is a natural number
  have hT : ∃ N : ℕ, totalWeight weights = (N : ℚ) := by
    rw [totalWeight_eq_sum]
    have : ∀ l : List ℚ, (∀ w ∈ l, ∃ n : ℕ, w = (n : ℚ)) → ∃ N : ℕ, l.sum = (N : ℚ) := by
      intro l
      induction l with
      | nil => intro _; exact ⟨0, by simp⟩
      | cons a l ih =>
        intro hl
        obtain ⟨n, hn⟩ := hl a (List.mem_cons_self _ _)
        obtain ⟨N, hN⟩ := ih (fun w hw => hl w (List.mem_cons_of_mem _ hw))
        exact ⟨n + N, by rw [List.sum_cons, hn, hN]; push_cast; ring⟩
    exact this weights h.1
  obtain ⟨N, hN⟩ := hT
  have hN53 : N ≤ 2 ^ 53 := by
    have := h.2
    rw [hN] at this
    exact_mod_cast this
  rw [hN]
  apply roundDouble_le_natCast _ N hN53
  rw [← hN]
  nlinarith

/-- For natural weights the code on binary64 numbers returns what the exact walk returns on
the rounded draw. -/
theorem getRandomTypeIndexDouble_natural (cfg : AtlasConfig) (h : NaturalWeights cfg.weights)
    (r : ℚ) (h0 : 0 ≤ r) (h1 : r < 1) (hpos : 0 < totalWeight cfg.weights) :
    walkDouble cfg.weights (roundDouble (r * totalWeightDouble cfg.weights)) 0 =
      walk cfg.weights (roundDouble (r * totalWeightDouble cfg.weights)) 0 ∧
    getRandomTypeIndexDouble cfg r =
      selectIndex cfg.weights (roundDouble (r * totalWeightDouble cfg.weights)) := by
  obtain ⟨hd, _, hle⟩ := draw_natural cfg.weights h r h0 h1 hpos
  have hw := walkDouble_eq_walk cfg.weights h.1 _ 0 hd (le_trans hle h.2)
  exact ⟨hw, by simp only [getRandomTypeIndexDouble, selectIndexDouble, selectIndex, hw]⟩

/-- Evaluation of a rounding: when `2 ^ k <= |x| < 2 ^ (k + 1)` with `k - 52` not below the
subnormal exponent, the result is the rounded multiple of `2 ^ (k - 52)`. -/
theorem roundDouble_eval (x : ℚ) (k n : ℤ) (hlo : (2 : ℚ) ^ k ≤ |x|) (hhi : |x| < 2 ^ (k + 1))
    (hk : -1074 ≤ k - 52) (hn : roundHalfEven (x / 2 ^ (k - 52)) = n) :
    roundDouble x = (n : ℚ) * 2 ^ (k - 52) := by
  have hpos : 0 < |x| := lt_of_lt_of_le (two_zpow_pos k) hlo
  have hlog : Int.log 2 |x| = k := by
    apply le_antisymm
    · have := (Int.lt_zpow_iff_log_lt (R := ℚ) (b := 2) (by norm_num) hpos (x := k + 1)).1
        (by simpa using hhi)
      omega
    · exact (Int.zpow_le_iff_le_log (R := ℚ) (b := 2) (by norm_num) hpos).1 (by simpa using hlo)
  have hE : ulpExponent x = k - 52 := by
    unfold ulpExponent
    rw [hlog]
    exact max_eq_left hk
  unfold roundDouble
  rw [hE, hn]

/-- Evaluation of a rounding of a positive number. -/
theorem roundDouble_eval_pos (x : ℚ) (k n : ℤ) (hlo : (2 : ℚ) ^ k ≤ x) (hhi : x < 2 ^ (k + 1))
    (hk : -1074 ≤ k - 52) (hn : roundHalfEven (x / 2 ^ (k - 52)) = n) :
    roundDouble x = (n : ℚ) * 2 ^ (k - 52) := by
  have hx : 0 < x := lt_of_lt_of_le (two_zpow_pos k) hlo
  exact roundDouble_eval x k n (by rwa [abs_of_pos hx]) (by rwa [abs_of_pos hx]) hk hn

/-- The entries of `fractionalWeights` are the binary64 values of the literals 0.2, 0.4 and
0.15. -/
theorem fractional_are_doubles :
    roundDouble (2 / 10) = 3602879701896397 / 2 ^ 54 ∧
    roundDouble (4 / 10) = 3602879701896397 / 2 ^ 53 ∧
    roundDouble (15 / 100) = 5404319552844595 / 2 ^ 55 := by
  refine ⟨?_, ?_, ?_⟩
  · rw [roundDouble_eval_pos (2 / 10) (-3) 7205759403792794 (by norm_num) (by norm_num)
      (by norm_num) (by norm_num [roundHalfEven])]
    norm_num
  · rw [roundDouble_eval_pos (4 / 10) (-2) 7205759403792794 (by norm_num) (by norm_num)
      (by norm_num) (by norm_num [roundHalfEven])]
    norm_num
  · rw [roundDouble_eval_pos (15 / 100) (-3) 5404319552844595 (by norm_num) (by norm_num)
      (by norm_num) (by norm_num [roundHalfEven])]
    norm_num


/-- The total of the weights 0.2, 0.4, 0.15 as the code computes it: 0.7500000000000001. -/
theorem fractional_total :
    totalWeightDouble fractionalWeights = 6755399441055745 / 2 ^ 53 := by
  have h1 : roundDouble (0 + 3602879701896397 / 2 ^ 54) = 3602879701896397 / 2 ^ 54 := by
    rw [roundDouble_eval_pos _ (-3) 7205759403792794 (by norm_num) (by norm_num)
      (by norm_num) (by norm_num [roundHalfEven])]
    norm_num
  have h2 : roundDouble (3602879701896397 / 2 ^ 54 + 3602879701896397 / 2 ^ 53)
      = 5404319552844596 / 2 ^ 53 := by
    rw [roundDouble_eval_pos _ (-1) 5404319552844596 (by norm_num) (by norm_num)
      (by norm_num) (by norm_num [roundHalfEven])]
    norm_num
  have h3 : roundDouble (5404319552844596 / 2 ^ 53 + 5404319552844595 / 2 ^ 55)
      = 6755399441055745 / 2 ^ 53 := by
    rw [roundDouble_eval_pos _ (-1) 6755399441055745 (by norm_num) (by norm_num)
      (by norm_num) (by norm_num [roundHalfEven])]
    norm_num
  simp only [totalWeightDouble, fractionalWeights, List.foldl, h1, h2, h3]

/-- The draw for `Math.random() = 1 - 2 ^ -53` and the total 0.7500000000000001: 0.75. -/
theorem fractional_draw :
    roundDouble ((1 - 1 / 2 ^ 53) * (6755399441055745 / 2 ^ 53)) = 3 / 4 := by
  rw [roundDouble_eval_pos _ (-1) 6755399441055744 (by norm_num) (by norm_num)
    (by norm_num) (by norm_num [roundHalfEven])]
  norm_num

/-- From the draw 0.75 the loop on the weights 0.2, 0.4, 0.15 ends without returning. -/
theorem fractional_walk : walkDouble fractionalWeights (3 / 4) 0 = none := by
  have h1 : roundDouble (3 / 4 - 3602879701896397 / 2 ^ 54) = 4953959590107546 / 2 ^ 53 := by
    rw [roundDouble_eval_pos _ (-1) 4953959590107546 (by norm_num) (by norm_num)
      (by norm_num) (by norm_num [roundHalfEven])]
    norm_num
  have h2 : roundDouble (4953959590107546 / 2 ^ 53 - 3602879701896397 / 2 ^ 53)
      = 1351079888211149 / 2 ^ 53 := by
    rw [roundDouble_eval_pos _ (-3) 5404319552844596 (by norm_num) (by norm_num)
      (by norm_num) (by norm_num [roundHalfEven])]
    norm_num
  have h3 : roundDouble (1351079888211149 / 2 ^ 53 - 5404319552844595 / 2 ^ 55)
      = 1 / 2 ^ 55 := by
    rw [roundDouble_eval_pos _ (-55) 4503599627370496 (by norm_num) (by norm_num)
      (by norm_num) (by norm_num [roundHalfEven])]
    norm_num
  simp only [walkDouble, fractionalWeights, h1, h2, h3]
  norm_num

/-! ## C1 -/

/-- C1 (counterexample): with the well-formed weight vector `[0, 1]` and the draw `u = 0`
(`Math.random()` returning 0) the walk subtracts the weight 0, finds the remainder `0 <= 0`
and returns index 0, whose weight is 0. -/
theorem C1_counterexample :
    WellFormedWeights [0, 1] ∧ (0 : ℚ) ≤ 0 ∧ (0 : ℚ) < totalWeight [0, 1] ∧
      selectIndex [0, 1] 0 = 0 ∧
      getRandomTypeIndex { cols := 2, rows := 1, subgrids := [(1, 1), (1, 1)], weights := [0, 1] } 0
        = 0 ∧
      ([0, 1] : List ℚ)[0]? = some 0 ∧
      ¬ (0 < ([0, 1] : List ℚ).getD (selectIndex [0, 1] 0) 0) := by
  have hsel : selectIndex [0, 1] 0 = 0 := by simp [selectIndex, walk]
  refine ⟨⟨by simp, ?_, by norm_num [totalWeight]⟩, le_refl 0, by norm_num [totalWeight], hsel,
    ?_, rfl, ?_⟩
  · intro w hw
    simp only [List.mem_cons, List.mem_singleton, List.not_mem_nil, or_false] at hw
    rcases hw with rfl | rfl <;> norm_num
  · simp [getRandomTypeIndex, selectIndex, walk]
  · rw [hsel]; simp

/-! ## Facts about the selector on natural and on fractional weights -/

/-- The shipped weights are natural numbers of total 96. -/
theorem ATLAS_CONFIG_naturalWeights : NaturalWeights ATLAS_CONFIG.weights := by
  refine ⟨?_, by rw [ATLAS_CONFIG_totalWeight]; norm_num⟩
  intro w hw
  simp only [ATLAS_CONFIG, List.mem_cons, List.mem_singleton, List.not_mem_nil, or_false] at hw
  rcases hw with h | h | h | h | h | h | h | h | h | h | h | h | h | h | h | h
  · exact ⟨12, by rw [h]; norm_num⟩
  · exact ⟨8, by rw [h]; norm_num⟩
  · exact ⟨8, by rw [h]; norm_num⟩
  · exact ⟨5, by rw [h]; norm_num⟩
  · exact ⟨11, by rw [h]; norm_num⟩
  · exact ⟨7, by rw [h]; norm_num⟩
  · exact ⟨8, by rw [h]; norm_num⟩
  · exact ⟨10, by rw [h]; norm_num⟩
  · exact ⟨7, by rw [h]; norm_num⟩
  · exact ⟨6, by rw [h]; norm_num⟩
  · exact ⟨6, by rw [h]; norm_num⟩
  · exact ⟨0, by rw [h]; norm_num⟩
  · exact ⟨2, by rw [h]; norm_num⟩
  · exact ⟨2, by rw [h]; norm_num⟩
  · exact ⟨2, by rw [h]; norm_num⟩
  · exact ⟨2, by rw [h]; norm_num⟩

theorem fractional_wellFormed : WellFormedWeights fractionalWeights := by
  refine ⟨by simp [fractionalWeights], ?_, by norm_num [fractionalWeights, totalWeight]⟩
  intro w hw
  simp only [fractionalWeights, List.mem_cons, List.mem_singleton, List.not_mem_nil,
    or_false] at hw
  rcases hw with h | h | h <;> (rw [h]; positivity)

/-- On the weights 0.2, 0.4, 0.15 with `Math.random() = 1 - 2 ^ -53` the code computes the
total 0.7500000000000001 and the draw 0.75, every remainder of the loop stays positive (0.55,
0.15000000000000002, `2 ^ -55`), and the fallback `return 0` runs. -/
theorem fractional_fallback :
    totalWeightDouble fractionalConfig.weights = 6755399441055745 / 2 ^ 53 ∧
    roundDouble ((1 - 1 / 2 ^ 53) * totalWeightDouble fractionalConfig.weights) = 3 / 4 ∧
    walkDouble fractionalConfig.weights (3 / 4) 0 = none ∧
    getRandomTypeIndexDouble fractionalConfig (1 - 1 / 2 ^ 53) = 0 := by
  have ht : totalWeightDouble fractionalConfig.weights = 6755399441055745 / 2 ^ 53 :=
    fractional_total
  have hu : roundDouble ((1 - 1 / 2 ^ 53) * totalWeightDouble fractionalConfig.weights)
      = 3 / 4 := by
    rw [ht]; exact fractional_draw
  have hw : walkDouble fractionalConfig.weights (3 / 4) 0 = none := fractional_walk
  refine ⟨ht, hu, hw, ?_⟩
  simp only [getRandomTypeIndexDouble, selectIndexDouble, hu, hw, Option.getD_none]


/-! ## C1 (amended) -/

/-- C1 (amended): for a well-formed vector of natural weights (total at most `2 ^ 53`) and a
value `r` in `[0, 1)` of `Math.random()`, when the draw computed by the code is not 0 or the
first weight is positive, the index that `getRandomTypeIndex` returns on binary64 numbers is
in range and has a strictly positive weight. -/
theorem C1_selected_weight_positive (cfg : AtlasConfig)
    (hwf : WellFormedWeights cfg.weights) (hnat : NaturalWeights cfg.weights) (r : ℚ)
    (h0 : 0 ≤ r) (h1 : r < 1)
    (hpos : 0 < roundDouble (r * totalWeightDouble cfg.weights) ∨ 0 < cfg.weights.headD 0) :
    ∃ h : getRandomTypeIndexDouble cfg r < cfg.weights.length,
      0 < cfg.weights[getRandomTypeIndexDouble cfg r] := by
  obtain ⟨_, _, hle⟩ := draw_natural cfg.weights hnat r h0 h1 hwf.2.2
  obtain ⟨_, heq⟩ := getRandomTypeIndexDouble_natural cfg hnat r h0 h1 hwf.2.2
  obtain ⟨hlt, hp⟩ := selectIndex_weight_pos cfg.weights _ hwf.1 hwf.2.1 hle hpos
  refine ⟨by rw [heq]; exact hlt, ?_⟩
  simp only [heq]
  exact hp

/-- C1 (amended), applied to the shipped weights and `Math.random() = 0`. -/
theorem C1_selected_weight_positive_witness :
    WellFormedWeights ATLAS_CONFIG.weights ∧ NaturalWeights ATLAS_CONFIG.weights ∧
    (0 : ℚ) ≤ 0 ∧ (0 : ℚ) < 1 ∧
    (0 < roundDouble (0 * totalWeightDouble ATLAS_CONFIG.weights) ∨
      0 < ATLAS_CONFIG.weights.headD 0) ∧
    ∃ h : getRandomTypeIndexDouble ATLAS_CONFIG 0 < ATLAS_CONFIG.weights.length,
      0 < ATLAS_CONFIG.weights[getRandomTypeIndexDouble ATLAS_CONFIG 0] :=
  ⟨ATLAS_CONFIG_wellFormed, ATLAS_CONFIG_naturalWeights, le_refl 0, by norm_num,
    Or.inr (by norm_num [ATLAS_CONFIG]),
    C1_selected_weight_positive ATLAS_CONFIG ATLAS_CONFIG_wellFormed ATLAS_CONFIG_naturalWeights
      0 (le_refl 0) (by norm_num) (Or.inr (by norm_num [ATLAS_CONFIG]))⟩

/-! ## C8 -/

/-- C8 (counterexample): the weights 0.2, 0.4, 0.15 are well formed and `1 - 2 ^ -53` is a
value of `Math.random()` in `[0, 1)`; the draw 0.75 lies in `[0, total)`, yet the loop ends
without returning and index 0 comes from the fallback `return 0`. -/
theorem C8_counterexample :
    WellFormedWeights fractionalConfig.weights ∧
    (0 : ℚ) ≤ 1 - 1 / 2 ^ 53 ∧ (1 - 1 / 2 ^ 53 : ℚ) < 1 ∧
    roundDouble ((1 - 1 / 2 ^ 53) * totalWeightDouble fractionalConfig.weights) = 3 / 4 ∧
    (0 : ℚ) ≤ 3 / 4 ∧ (3 / 4 : ℚ) < totalWeightDouble fractionalConfig.weights ∧
    (3 / 4 : ℚ) < totalWeight fractionalConfig.weights ∧
    walkDouble fractionalConfig.weights (3 / 4) 0 = none ∧
    getRandomTypeIndexDouble fractionalConfig (1 - 1 / 2 ^ 53) = 0 := by
  obtain ⟨ht, hu, hw, hg⟩ := fractional_fallback
  refine ⟨fractional_wellFormed, by norm_num, by norm_num, hu, by norm_num, ?_, ?_, hw, hg⟩
  · rw [ht]; norm_num
  · norm_num [fractionalConfig, fractionalWeights, totalWeight]

/-- C8 (amended): on binary64 numbers `getRandomTypeIndex` returns an index `i` with
`0 <= i < weights.length` for every non-empty weight vector and every value of
`Math.random()`; and for a well-formed vector of natural weights (total at most `2 ^ 53`) and
`Math.random()` in `[0, 1)` the index is returned from inside the loop: the fallback
`return 0` is not reached. -/
theorem C8_selector_total (cfg : AtlasConfig) (hwf : WellFormedWeights cfg.weights)
    (hnat : NaturalWeights cfg.weights) (r : ℚ) (h0 : 0 ≤ r) (h1 : r < 1) :
    (∀ (cfg1 : AtlasConfig) (r1 : ℚ), cfg1.weights ≠ [] →
      0 ≤ getRandomTypeIndexDouble cfg1 r1 ∧
      getRandomTypeIndexDouble cfg1 r1 < cfg1.weights.length) ∧
    ∃ i, walkDouble cfg.weights (roundDouble (r * totalWeightDouble cfg.weights)) 0 = some i ∧
      getRandomTypeIndexDouble cfg r = i ∧ i < cfg.weights.length := by
  refine ⟨fun cfg1 r1 hne => ⟨Nat.zero_le _, selectIndexDouble_lt_length _ _ hne⟩, ?_⟩
  obtain ⟨_, _, hle⟩ := draw_natural cfg.weights hnat r h0 h1 hwf.2.2
  obtain ⟨hwalk, _⟩ := getRandomTypeIndexDouble_natural cfg hnat r h0 h1 hwf.2.2
  rw [totalWeight_eq_sum] at hle
  obtain ⟨i, hi, _, hlt⟩ := walk_isSome cfg.weights _ 0 hwf.1 hle
  rw [← hwalk] at hi
  refine ⟨i, hi, ?_, by omega⟩
  simp only [getRandomTypeIndexDouble, selectIndexDouble, hi, Option.getD_some]

/-- C8 (amended) applied to the shipped weights and `Math.random() = 1/2`. -/
theorem C8_selector_total_witness :
    WellFormedWeights ATLAS_CONFIG.weights ∧ NaturalWeights ATLAS_CONFIG.weights ∧
    (0 : ℚ) ≤ 1 / 2 ∧ (1 / 2 : ℚ) < 1 ∧
    (∀ (cfg1 : AtlasConfig) (r1 : ℚ), cfg1.weights ≠ [] →
      0 ≤ getRandomTypeIndexDouble cfg1 r1 ∧
      getRandomTypeIndexDouble cfg1 r1 < cfg1.weights.length) ∧
    ∃ i, walkDouble ATLAS_CONFIG.weights
        (roundDouble (1 / 2 * totalWeightDouble ATLAS_CONFIG.weights)) 0 = some i ∧
      getRandomTypeIndexDouble ATLAS_CONFIG (1 / 2) = i ∧ i < ATLAS_CONFIG.weights.length :=
  ⟨ATLAS_CONFIG_wellFormed, ATLAS_CONFIG_naturalWeights, by norm_num, by norm_num,
    C8_selector_total ATLAS_CONFIG ATLAS_CONFIG_wellFormed ATLAS_CONFIG_naturalWeights (1 / 2)
      (by norm_num) (by norm_num)⟩

/-! ## C17 -/

/-- C17 (counterexample): on the weights 0.2, 0.4, 0.15 with `Math.random() = 1 - 2 ^ -53`
the draw is 0.75 and the code returns 0 (by the fallback), where the running remainder
`0.75 - 0.2` is positive; the least index with a remainder `<= 0` is 2. -/
theorem C17_counterexample :
    WellFormedWeights fractionalConfig.weights ∧
    roundDouble ((1 - 1 / 2 ^ 53) * totalWeightDouble fractionalConfig.weights) = 3 / 4 ∧
    (3 / 4 : ℚ) < totalWeight fractionalConfig.weights ∧
    getRandomTypeIndexDouble fractionalConfig (1 - 1 / 2 ^ 53) = 0 ∧
    ¬ (3 / 4 - runningSum fractionalConfig.weights (0 + 1) ≤ 0) ∧
    ¬ (3 / 4 - runningSum fractionalConfig.weights (1 + 1) ≤ 0) ∧
    3 / 4 - runningSum fractionalConfig.weights (2 + 1) ≤ 0 := by
  obtain ⟨_, hu, _, hg⟩ := fractional_fallback
  refine ⟨fractional_wellFormed, hu, ?_, hg, ?_, ?_, ?_⟩ <;>
    norm_num [fractionalConfig, fractionalWeights, totalWeight, runningSum]

/-- C17 (amended): for a well-formed vector of natural weights (total at most `2 ^ 53`) and a
value `r` in `[0, 1)` of `Math.random()`, with `u` the draw that the code computes,
`getRandomTypeIndex` on binary64 numbers returns the least index `i` at which the running
remainder `u - (weights[0] + ... + weights[i])` is `<= 0`. -/
theorem C17_least_index_with_nonpositive_remainder (cfg : AtlasConfig)
    (hwf : WellFormedWeights cfg.weights) (hnat : NaturalWeights cfg.weights) (r : ℚ)
    (h0 : 0 ≤ r) (h1 : r < 1) :
    getRandomTypeIndexDouble cfg r < cfg.weights.length ∧
    roundDouble (r * totalWeightDouble cfg.weights)
      - runningSum cfg.weights (getRandomTypeIndexDouble cfg r + 1) ≤ 0 ∧
    ∀ m, m < getRandomTypeIndexDouble cfg r →
      ¬ (roundDouble (r * totalWeightDouble cfg.weights) - runningSum cfg.weights (m + 1) ≤ 0)
    := by
  obtain ⟨_, _, hle⟩ := draw_natural cfg.weights hnat r h0 h1 hwf.2.2
  obtain ⟨_, heq⟩ := getRandomTypeIndexDouble_natural cfg hnat r h0 h1 hwf.2.2
  obtain ⟨hlt, hrem, hall⟩ := (selectIndex_eq_iff cfg.weights _ _ hwf.1 hle).1 rfl
  rw [heq]
  refine ⟨hlt, by linarith, fun m hm => ?_⟩
  have := hall m hm
  linarith

/-- C17 (amended) applied to the shipped weights and `Math.random() = 1/2`. -/
theorem C17_least_index_with_nonpositive_remainder_witness :
    WellFormedWeights ATLAS_CONFIG.weights ∧ NaturalWeights ATLAS_CONFIG.weights ∧
    (0 : ℚ) ≤ 1 / 2 ∧ (1 / 2 : ℚ) < 1 ∧
    getRandomTypeIndexDouble ATLAS_CONFIG (1 / 2) < ATLAS_CONFIG.weights.length ∧
    roundDouble (1 / 2 * totalWeightDouble ATLAS_CONFIG.weights)
      - runningSum ATLAS_CONFIG.weights (getRandomTypeIndexDouble ATLAS_CONFIG (1 / 2) + 1) ≤ 0 ∧
    ∀ m, m < getRandomTypeIndexDouble ATLAS_CONFIG (1 / 2) →
      ¬ (roundDouble (1 / 2 * totalWeightDouble ATLAS_CONFIG.weights)
        - runningSum ATLAS_CONFIG.weights (m + 1) ≤ 0) :=
  ⟨ATLAS_CONFIG_wellFormed, ATLAS_CONFIG_naturalWeights, by norm_num, by norm_num,
    C17_least_index_with_nonpositive_remainder ATLAS_CONFIG ATLAS_CONFIG_wellFormed
      ATLAS_CONFIG_naturalWeights (1 / 2) (by norm_num) (by norm_num)⟩


/-! ## C5 -/

/-- For natural weights and a binary64 draw up to the total, the selector on binary64 numbers
and the selector on exact numbers agree. -/
theorem selectIndexDouble_natural (weights : List ℚ) (hnat : NaturalWeights weights) (u : ℚ)
    (hu : IsDouble u) (hle : u ≤ totalWeight weights) :
    selectIndexDouble weights u = selectIndex weights u := by
  unfold selectIndexDouble selectIndex
  rw [walkDouble_eq_walk weights hnat.1 u 0 hu (le_trans hle hnat.2)]

/-- The selector on the weights 0.2, 0.4, 0.15 at the draws 0, 0.5 and 0.75. -/
theorem fractional_three_draws :
    selectIndexDouble fractionalConfig.weights 0 = 0 ∧
    selectIndexDouble fractionalConfig.weights (1 / 2) = 1 ∧
    selectIndexDouble fractionalConfig.weights (3 / 4) = 0 := by
  refine ⟨?_, ?_, ?_⟩
  · have h := roundDouble_nonpos (0 - 3602879701896397 / 2 ^ 54) (by norm_num)
    simp only [selectIndexDouble, fractionalConfig, fractionalWeights, walkDouble, h, if_true,
      Option.getD_some]
  · have h1 : roundDouble (1 / 2 - 3602879701896397 / 2 ^ 54) = 5404319552844595 / 2 ^ 54 := by
      rw [roundDouble_eval_pos _ (-2) 5404319552844595 (by norm_num) (by norm_num)
        (by norm_num) (by norm_num [roundHalfEven])]
      norm_num
    have h2 := roundDouble_nonpos (5404319552844595 / 2 ^ 54 - 3602879701896397 / 2 ^ 53)
      (by norm_num)
    have h3 : ¬ ((5404319552844595 : ℚ) / 2 ^ 54 ≤ 0) := by norm_num
    simp only [selectIndexDouble, fractionalConfig, fractionalWeights, walkDouble, h1, h2, h3,
      if_true, if_false, Option.getD_some]
  · have := fractional_walk
    simp only [selectIndexDouble, fractionalConfig, this, Option.getD_none]

/-- C5 (counterexample): on the weights 0.2, 0.4, 0.15 the draws 0, 0.5 and 0.75 all lie in
`[0, total)` and return the indices 0, 1 and 0, so the draws returning 0 do not form an
interval, and no interval of length `weights[0]` contains them. -/
theorem C5_counterexample :
    WellFormedWeights fractionalConfig.weights ∧
    (0 : ℚ) < 1 / 2 ∧ (1 / 2 : ℚ) < 3 / 4 ∧
    (3 / 4 : ℚ) < totalWeightDouble fractionalConfig.weights ∧
    (3 / 4 : ℚ) < totalWeight fractionalConfig.weights ∧
    selectIndexDouble fractionalConfig.weights 0 = 0 ∧
    selectIndexDouble fractionalConfig.weights (1 / 2) = 1 ∧
    selectIndexDouble fractionalConfig.weights (3 / 4) = 0 ∧
    ¬ ∃ a b : ℚ, b - a = fractionalConfig.weights.headD 0 ∧
      {u | 0 ≤ u ∧ u < totalWeightDouble fractionalConfig.weights ∧
        selectIndexDouble fractionalConfig.weights u = 0} ⊆ Set.Icc a b := by
  obtain ⟨d0, d1, d2⟩ := fractional_three_draws
  have ht : (3 / 4 : ℚ) < totalWeightDouble fractionalConfig.weights := by
    rw [fractional_fallback.1]; norm_num
  refine ⟨fractional_wellFormed, by norm_num, by norm_num, ht,
    by norm_num [fractionalConfig, fractionalWeights, totalWeight], d0, d1, d2, ?_⟩
  rintro ⟨a, b, hab, hsub⟩
  have m0 : (0 : ℚ) ∈ Set.Icc a b := hsub ⟨le_refl 0, by linarith, d0⟩
  have m1 : (3 / 4 : ℚ) ∈ Set.Icc a b := hsub ⟨by norm_num, ht, d2⟩
  have hw : fractionalConfig.weights.headD 0 < 3 / 4 := by
    norm_num [fractionalConfig, fractionalWeights]
  have := m0.1
  have := m1.2
  linarith

/-- C5 (amended): for a well-formed vector of natural weights (total at most `2 ^ 53`) and an
index `i`, the binary64 draws `u` in `[0, total)` on which the selector returns `i` are those
of an interval with end points `a <= b`, `b - a = weights[i]`: every binary64 number of the
open interval is such a draw and every such draw lies in the closed interval. The draw of
`getRandomTypeIndex` is the rounded product `Math.random() * total`. -/
theorem C5_selection_interval_length (cfg : AtlasConfig) (hwf : WellFormedWeights cfg.weights)
    (hnat : NaturalWeights cfg.weights) (i : ℕ) (hi : i < cfg.weights.length) :
    (∃ a b : ℚ, b - a = cfg.weights[i] ∧
      {u | IsDouble u ∧ a < u ∧ u < b} ⊆
        {u | IsDouble u ∧ 0 ≤ u ∧ u < totalWeightDouble cfg.weights ∧
          selectIndexDouble cfg.weights u = i} ∧
      {u | IsDouble u ∧ 0 ≤ u ∧ u < totalWeightDouble cfg.weights ∧
          selectIndexDouble cfg.weights u = i} ⊆ Set.Icc a b) ∧
    ∀ r : ℚ, getRandomTypeIndexDouble cfg r =
      selectIndexDouble cfg.weights (roundDouble (r * totalWeightDouble cfg.weights)) := by
  refine ⟨?_, fun r => rfl⟩
  rw [totalWeightDouble_natural cfg.weights hnat]
  refine ⟨runningSum cfg.weights i, runningSum cfg.weights (i + 1),
    by rw [runningSum_succ cfg.weights i hi]; ring, ?_, ?_⟩
  · rintro u ⟨hd, h1, h2⟩
    obtain ⟨k0, k1, k2⟩ := (selectIndex_between cfg.weights hwf.1 hwf.2.1 i hi u).1 ⟨h1, h2⟩
    exact ⟨hd, k0, k1, by rw [selectIndexDouble_natural cfg.weights hnat u hd k1.le]; exact k2⟩
  · rintro u ⟨hd, h0, hlt, hsel⟩
    rw [selectIndexDouble_natural cfg.weights hnat u hd hlt.le] at hsel
    exact (selectIndex_between cfg.weights hwf.1 hwf.2.1 i hi u).2 ⟨h0, hlt, hsel⟩

/-- C5 (amended) applied to the shipped weights and index 4. -/
theorem C5_selection_interval_length_witness :
    WellFormedWeights ATLAS_CONFIG.weights ∧ NaturalWeights ATLAS_CONFIG.weights ∧
    ∃ hi : 4 < ATLAS_CONFIG.weights.length,
    (∃ a b : ℚ, b - a = ATLAS_CONFIG.weights[4] ∧
      {u | IsDouble u ∧ a < u ∧ u < b} ⊆
        {u | IsDouble u ∧ 0 ≤ u ∧ u < totalWeightDouble ATLAS_CONFIG.weights ∧
          selectIndexDouble ATLAS_CONFIG.weights u = 4} ∧
      {u | IsDouble u ∧ 0 ≤ u ∧ u < totalWeightDouble ATLAS_CONFIG.weights ∧
          selectIndexDouble ATLAS_CONFIG.weights u = 4} ⊆ Set.Icc a b) ∧
    ∀ r : ℚ, getRandomTypeIndexDouble ATLAS_CONFIG r =
      selectIndexDouble ATLAS_CONFIG.weights
        (roundDouble (r * totalWeightDouble ATLAS_CONFIG.weights)) :=
  ⟨ATLAS_CONFIG_wellFormed, ATLAS_CONFIG_naturalWeights, by simp [ATLAS_CONFIG],
    C5_selection_interval_length ATLAS_CONFIG ATLAS_CONFIG_wellFormed
      ATLAS_CONFIG_naturalWeights 4 (by simp [ATLAS_CONFIG])⟩

/-! ## C7 -/

/-- C7: `checkCollision(rect)` is true exactly when some placed rectangle `o` satisfies the
four strict inequalities with margin 20; the viewport size (from which the safe zone is
computed) does not change the result, and with an empty placed set every candidate is
accepted. -/
theorem C7_checkCollision_exact (innerWidth innerHeight : ℚ) (placedRects : List Rect)
    (rect : Rect) :
    (checkCollision innerWidth innerHeight placedRects rect = true ↔
      ∃ o ∈ placedRects, rect.x < o.x + o.w + 20 ∧ rect.x + rect.w > o.x - 20 ∧
        rect.y < o.y + o.h + 20 ∧ rect.y + rect.h > o.y - 20) ∧
    (∀ innerWidth1 innerHeight1 : ℚ,
      checkCollision innerWidth1 innerHeight1 placedRects rect =
        checkCollision innerWidth innerHeight placedRects rect) ∧
    checkCollision innerWidth innerHeight [] rect = false := by
  refine ⟨?_, fun _ _ => rfl, rfl⟩
  simp only [checkCollision, overlapsWithMargin, List.any_eq_true, decide_eq_true_eq]

/-! ## Facts about the generation pass -/

/-- One unfolding of the loop. -/
theorem generateLoop_unfold (cfg : AtlasConfig) (rand : ℕ → ℚ) (innerWidth innerHeight : ℚ)
    (maxAssets : ℕ) (wrapperSize : ℚ) (maxAttempts : ℕ) (st : PassState) :
    generateLoop cfg rand innerWidth innerHeight maxAssets wrapperSize maxAttempts st =
      if st.count < maxAssets ∧ st.attempts < maxAttempts then
        match createAssetElement cfg wrapperSize (getRandomTypeIndex cfg (rand st.cursor)) rand
            (st.cursor + 1) with
        | none => none
        | some assetObj =>
          if checkCollision innerWidth innerHeight st.placedRects
              { x := rand (st.cursor + 7) * (innerWidth - assetObj.w)
                y := rand (st.cursor + 8) * (innerHeight - assetObj.h)
                w := assetObj.w, h := assetObj.h } = false then
            generateLoop cfg rand innerWidth innerHeight maxAssets wrapperSize maxAttempts
              (acceptState st assetObj (rand (st.cursor + 7) * (innerWidth - assetObj.w))
                (rand (st.cursor + 8) * (innerHeight - assetObj.h)))
          else
            generateLoop cfg rand innerWidth innerHeight maxAssets wrapperSize maxAttempts
              (rejectState st)
      else some st := by
  rw [generateLoop]
  by_cases hc : st.count < maxAssets ∧ st.attempts < maxAttempts
  · simp only [hc, and_self, if_true]
    cases createAssetElement cfg wrapperSize (getRandomTypeIndex cfg (rand st.cursor)) rand
      (st.cursor + 1) with
    | none => rfl
    | some assetObj =>
      simp only [acceptState, rejectState]
      cases checkCollision innerWidth innerHeight st.placedRects
        { x := rand (st.cursor + 7) * (innerWidth - assetObj.w)
          y := rand (st.cursor + 8) * (innerHeight - assetObj.h)
          w := assetObj.w, h := assetObj.h } <;> simp
  · simp only [hc, if_false]

/-- Invariant rule for the loop: a property that holds at entry and is kept by an accepted
and by a rejected attempt holds at exit, where the loop condition is false. -/
theorem generateLoop_induction (P : PassState → Prop) (cfg : AtlasConfig) (rand : ℕ → ℚ)
    (innerWidth innerHeight : ℚ) (maxAssets : ℕ) (wrapperSize : ℚ) (maxAttempts : ℕ)
    (hacc : ∀ st assetObj, P st → st.count < maxAssets → st.attempts < maxAttempts →
      createAssetElement cfg wrapperSize (getRandomTypeIndex cfg (rand st.cursor)) rand
        (st.cursor + 1) = some assetObj →
      checkCollision innerWidth innerHeight st.placedRects
        { x := rand (st.cursor + 7) * (innerWidth - assetObj.w)
          y := rand (st.cursor + 8) * (innerHeight - assetObj.h)
          w := assetObj.w, h := assetObj.h } = false →
      P (acceptState st assetObj (rand (st.cursor + 7) * (innerWidth - assetObj.w))
        (rand (st.cursor + 8) * (innerHeight - assetObj.h))))
    (hrej : ∀ st, P st → st.count < maxAssets → st.attempts < maxAttempts → P (rejectState st))
    (st st1 : PassState) (h : P st)
    (hrun : generateLoop cfg rand innerWidth innerHeight maxAssets wrapperSize maxAttempts st
      = some st1) :
    P st1 ∧ ¬ (st1.count < maxAssets ∧ st1.attempts < maxAttempts) := by
  generalize hn : maxAttempts - st.attempts = n
  induction n using Nat.strong_induction_on generalizing st with
  | _ n ih =>
    rw [generateLoop_unfold] at hrun
    by_cases hc : st.count < maxAssets ∧ st.attempts < maxAttempts
    · rw [if_pos hc] at hrun
      cases hcreate : createAssetElement cfg wrapperSize
          (getRandomTypeIndex cfg (rand st.cursor)) rand (st.cursor + 1) with
      | none => rw [hcreate] at hrun; exact absurd hrun (by simp)
      | some assetObj =>
        rw [hcreate] at hrun
        simp only at hrun
        by_cases hcol : checkCollision innerWidth innerHeight st.placedRects
            { x := rand (st.cursor + 7) * (innerWidth - assetObj.w)
              y := rand (st.cursor + 8) * (innerHeight - assetObj.h)
              w := assetObj.w, h := assetObj.h } = false
        · rw [if_pos hcol] at hrun
          refine ih (maxAttempts - (st.attempts + 1)) (by omega) _
            (hacc st assetObj h hc.1 hc.2 hcreate hcol) hrun rfl
        · rw [if_neg hcol] at hrun
          refine ih (maxAttempts - (st.attempts + 1)) (by omega) _
            (hrej st h hc.1 hc.2) hrun rfl
    · rw [if_neg hc] at hrun
      cases hrun
      exact ⟨h, hc⟩

/-- The loop returns (it neither throws nor diverges) when every call of `createAssetElement`
on a selected category returns. -/
theorem generateLoop_isSome (cfg : AtlasConfig) (rand : ℕ → ℚ) (innerWidth innerHeight : ℚ)
    (maxAssets : ℕ) (wrapperSize : ℚ) (maxAttempts : ℕ)
    (hcreate : ∀ r k, ∃ a,
      createAssetElement cfg wrapperSize (getRandomTypeIndex cfg r) rand k = some a)
    (st : PassState) :
    ∃ st1, generateLoop cfg rand innerWidth innerHeight maxAssets wrapperSize maxAttempts st
      = some st1 := by
  generalize hn : maxAttempts - st.attempts = n
  induction n using Nat.strong_induction_on generalizing st with
  | _ n ih =>
    rw [generateLoop_unfold]
    by_cases hc : st.count < maxAssets ∧ st.attempts < maxAttempts
    · rw [if_pos hc]
      obtain ⟨a, ha⟩ := hcreate (rand st.cursor) (st.cursor + 1)
      rw [ha]
      simp only
      split
      · exact ih (maxAttempts - (st.attempts + 1)) (by omega) _ rfl
      · exact ih (maxAttempts - (st.attempts + 1)) (by omega) _ rfl
    · rw [if_neg hc]
      exact ⟨st, rfl⟩

theorem walk_lt (ws : List ℚ) (u : ℚ) (k i : ℕ) (h : walk ws u k = some i) :
    i < k + ws.length := by
  obtain ⟨j, hj, hlen, _, _⟩ := (walk_eq_some_iff ws u k i).1 h
  omega

/-- Whatever the draw, the selector returns an index of a non-empty weight vector. -/
theorem selectIndex_lt_length (weights : List ℚ) (u : ℚ) (hne : weights ≠ []) :
    selectIndex weights u < weights.length := by
  unfold selectIndex
  cases h : walk weights u 0 with
  | none => exact List.length_pos.2 hne
  | some i => simpa using walk_lt weights u 0 i h

theorem createAssetElement_isSome (cfg : AtlasConfig) (wrapperSize : ℚ) (typeIndex : ℕ)
    (rand : ℕ → ℚ) (k : ℕ) (h : typeIndex < cfg.subgrids.length) :
    ∃ a, createAssetElement cfg wrapperSize typeIndex rand k = some a := by
  unfold createAssetElement
  rw [List.getElem?_eq_getElem h]
  exact ⟨_, rfl⟩

/-- With the shipped configuration no attempt throws. -/
theorem ATLAS_CONFIG_create_isSome (wrapperSize : ℚ) (rand : ℕ → ℚ) (r : ℚ) (k : ℕ) :
    ∃ a, createAssetElement ATLAS_CONFIG wrapperSize (getRandomTypeIndex ATLAS_CONFIG r) rand k
      = some a := by
  apply createAssetElement_isSome
  have := selectIndex_lt_length ATLAS_CONFIG.weights (r * totalWeight ATLAS_CONFIG.weights)
    (by simp [ATLAS_CONFIG])
  simpa [getRandomTypeIndex, ATLAS_CONFIG] using this

/-- The test of `checkCollision` is the intersection of the grown `other` with `rect`, and it
is symmetric in its two rectangles. -/
theorem overlapsWithMargin_iff (m : ℚ) (rect other : Rect) :
    (overlapsWithMargin m rect other ↔ intersects (expand other m) rect) ∧
    (overlapsWithMargin m rect other ↔ intersects (expand rect m) other) := by
  unfold overlapsWithMargin intersects expand
  constructor <;> constructor <;> rintro ⟨h1, h2, h3, h4⟩ <;>
    refine ⟨?_, ?_, ?_, ?_⟩ <;> simp only at * <;> linarith

theorem separated_of_not_overlaps (m : ℚ) (rect other : Rect)
    (h : ¬ overlapsWithMargin m rect other) : SeparatedWithMargin m other rect :=
  ⟨fun hi => h ((overlapsWithMargin_iff m rect other).1.2 hi),
    fun hi => h ((overlapsWithMargin_iff m rect other).2.2 hi)⟩

theorem checkCollision_false_iff (innerWidth innerHeight : ℚ) (placedRects : List Rect)
    (rect : Rect) :
    checkCollision innerWidth innerHeight placedRects rect = false ↔
      ∀ o ∈ placedRects, ¬ overlapsWithMargin 20 rect o := by
  simp [checkCollision]

/-- A pass on a manager whose container exists is the loop run from the cleared state. -/
theorem generateAssets_of_loop (cfg : AtlasConfig) (rand : ℕ → ℚ) (innerWidth innerHeight : ℚ)
    (s : BgAssetManager) (c : List AssetElement) (st : PassState) (hc : s.container = some c)
    (hrun : generateLoop cfg rand innerWidth innerHeight s.maxAssets s.wrapperSize maxAttempts
      { attempts := 0, count := 0, placedRects := [], children := [], cursor := 0 } = some st) :
    generateAssets cfg rand innerWidth innerHeight s =
      some { manager := { s with container := some st.children, assets := [],
                                 placedRects := st.placedRects }
             attempts := st.attempts
             count := st.count } := by
  simp only [generateAssets, hc, hrun]

/-- What a pass that runs (the container exists) establishes with the shipped configuration:
it returns, the loop condition is false at exit, and the invariant holds. -/
theorem generateAssets_run (rand : ℕ → ℚ) (innerWidth innerHeight : ℚ) (s : BgAssetManager)
    (c : List AssetElement) (hc : s.container = some c) :
    ∃ st, generateLoop ATLAS_CONFIG rand innerWidth innerHeight s.maxAssets s.wrapperSize
        maxAttempts { attempts := 0, count := 0, placedRects := [], children := [], cursor := 0 }
        = some st ∧
      generateAssets ATLAS_CONFIG rand innerWidth innerHeight s =
        some { manager := { s with container := some st.children, assets := [],
                                   placedRects := st.placedRects }
               attempts := st.attempts
               count := st.count } ∧
      PassInv s.maxAssets maxAttempts st ∧
      ¬ (st.count < s.maxAssets ∧ st.attempts < maxAttempts) := by
  obtain ⟨st, hst⟩ := generateLoop_isSome ATLAS_CONFIG rand innerWidth innerHeight s.maxAssets
    s.wrapperSize maxAttempts (fun r k => ATLAS_CONFIG_create_isSome s.wrapperSize rand r k)
    { attempts := 0, count := 0, placedRects := [], children := [], cursor := 0 }
  refine ⟨st, hst, generateAssets_of_loop _ _ _ _ s c st hc hst, ?_⟩
  · refine generateLoop_induction (PassInv s.maxAssets maxAttempts) ATLAS_CONFIG rand innerWidth
      innerHeight s.maxAssets s.wrapperSize maxAttempts ?_ ?_ _ st ?_ hst
    · rintro st0 a ⟨h1, h2, h3, h4⟩ hcount hatt _ hcol
      refine ⟨?_, ?_, ?_, ?_⟩
      · simp [acceptState, h1]
      · simp only [acceptState]; omega
      · simp only [acceptState]; omega
      · simp only [acceptState]
        rw [List.pairwise_append]
        refine ⟨h4, List.pairwise_singleton _ _, ?_⟩
        intro o ho b hb
        rw [List.mem_singleton] at hb
        subst hb
        exact separated_of_not_overlaps 20 _ o
          ((checkCollision_false_iff innerWidth innerHeight _ _).1 hcol o ho)
    · rintro st0 ⟨h1, h2, h3, h4⟩ hcount hatt
      exact ⟨h1, h2, by simp only [rejectState]; omega, h4⟩
    · exact ⟨rfl, Nat.zero_le _, Nat.zero_le _, List.Pairwise.nil⟩

theorem generateAssets_pairwise (rand : ℕ → ℚ) (innerWidth innerHeight : ℚ)
    (s : BgAssetManager) (hs : s.placedRects.Pairwise (SeparatedWithMargin 20)) :
    ∃ res, generateAssets ATLAS_CONFIG rand innerWidth innerHeight s = some res ∧
      res.manager.placedRects.Pairwise (SeparatedWithMargin 20) := by
  cases hc : s.container with
  | none =>
    refine ⟨{ manager := s, attempts := 0, count := 0 }, ?_, hs⟩
    simp only [generateAssets, hc]
  | some c =>
    obtain ⟨st, _, hres, hinv, _⟩ := generateAssets_run rand innerWidth innerHeight s c hc
    exact ⟨_, hres, hinv.2.2.2⟩

theorem reachable_pairwise (s : BgAssetManager) (hs : Reachable s) :
    s.placedRects.Pairwise (SeparatedWithMargin 20) := by
  induction hs with
  | construct => exact List.Pairwise.nil
  | init s _ ih => exact ih
  | generate s rand innerWidth innerHeight res _ hres ih =>
    obtain ⟨res1, h1, h2⟩ := generateAssets_pairwise rand innerWidth innerHeight s ih
    rw [hres] at h1
    cases h1
    exact h2

theorem separatedWithMargin_symm (m : ℚ) (a b : Rect) (h : SeparatedWithMargin m a b) :
    SeparatedWithMargin m b a :=
  ⟨h.2, h.1⟩

/-! ## C2 -/

/-- C2: in every state the manager can reach, for every random stream and viewport,
`generateAssets` returns and afterwards any two rectangles at distinct positions of
`placedRects` are separated with margin 20: neither rectangle grown by 20 px on all sides
intersects the other. -/
theorem C2_placed_rects_separated (s : BgAssetManager) (hs : Reachable s) (rand : ℕ → ℚ)
    (innerWidth innerHeight : ℚ) :
    ∃ res, generateAssets ATLAS_CONFIG rand innerWidth innerHeight s = some res ∧
      ∀ (i j : ℕ) (hi : i < res.manager.placedRects.length)
        (hj : j < res.manager.placedRects.length), i ≠ j →
        ¬ intersects (expand res.manager.placedRects[i] 20) res.manager.placedRects[j] ∧
        ¬ intersects (expand res.manager.placedRects[j] 20) res.manager.placedRects[i] := by
  obtain ⟨res, hres, hpw⟩ :=
    generateAssets_pairwise rand innerWidth innerHeight s (reachable_pairwise s hs)
  refine ⟨res, hres, ?_⟩
  intro i j hi hj hij
  rw [List.pairwise_iff_getElem] at hpw
  rcases Nat.lt_or_gt_of_ne hij with h | h
  · exact hpw i j hi hj h
  · exact separatedWithMargin_symm 20 _ _ (hpw j i hj hi h)

/-! ## Facts about the atlas geometry -/

theorem visibleRegion_assetLayout (subCols subRows typeIndex v : ℕ) (W d dl : ℚ) (fv : Bool)
    (rot : ℤ) :
    visibleRegion (assetLayout ATLAS_CONFIG subCols subRows typeIndex (v : ℤ) W d dl fv rot).element
      = { x := ((typeIndex % 4 : ℕ) : ℚ) * (W * subCols) + ((v % subCols : ℕ) : ℚ) * W + 4
          y := ((typeIndex / 4 : ℕ) : ℚ) * (W * subCols)
            + ((v / subCols : ℕ) : ℚ) * (W * ((subCols : ℚ) / (subRows : ℚ))) + 2
          w := W
          h := W * ((subCols : ℚ) / (subRows : ℚ)) - 4 } := by
  have h1 : ⌊(typeIndex : ℚ) / ((ATLAS_CONFIG.cols : ℕ) : ℚ)⌋ = ((typeIndex / 4 : ℕ) : ℤ) :=
    Rat.floor_natCast_div_natCast typeIndex 4
  have h2 : ⌊(v : ℚ) / (subCols : ℚ)⌋ = ((v / subCols : ℕ) : ℤ) :=
    Rat.floor_natCast_div_natCast v subCols
  have h3 : Int.tmod (v : ℤ) (subCols : ℤ) = ((v % subCols : ℕ) : ℤ) :=
    (Int.ofNat_tmod v subCols).symm
  have h4 : typeIndex % ATLAS_CONFIG.cols = typeIndex % 4 := rfl
  simp only [visibleRegion, assetLayout, h1, h2, h3, h4, Int.cast_natCast, Rect.mk.injEq]
  refine ⟨by ring, by ring, trivial, trivial⟩

theorem assetLayout_imgSize (subCols subRows typeIndex : ℕ) (v : ℤ) (W d dl : ℚ) (fv : Bool)
    (rot : ℤ) :
    (assetLayout ATLAS_CONFIG subCols subRows typeIndex v W d dl fv rot).element.imgWidth
        = W * subCols * 4 ∧
    (assetLayout ATLAS_CONFIG subCols subRows typeIndex v W d dl fv rot).element.imgHeight
        = W * subCols * 4 := by
  simp only [assetLayout, and_self]

/-- Position of a variant in its sub-grid: the column and row are inside the sub-grid. -/
theorem variant_cell_bounds (subCols subRows v : ℕ) (hv : v < subCols * subRows) :
    0 < subCols ∧ 0 < subRows ∧ v % subCols + 1 ≤ subCols ∧ v / subCols + 1 ≤ subRows := by
  have hc : 0 < subCols := by
    rcases Nat.eq_zero_or_pos subCols with h | h
    · subst h; simp at hv
    · exact h
  have hr : 0 < subRows := by
    rcases Nat.eq_zero_or_pos subRows with h | h
    · subst h; simp at hv
    · exact h
  refine ⟨hc, hr, Nat.mod_lt v hc, ?_⟩
  exact Nat.div_lt_of_lt_mul hv

theorem subgrids_index_lt (typeIndex subCols subRows : ℕ)
    (hsub : ATLAS_CONFIG.subgrids[typeIndex]? = some (subCols, subRows)) : typeIndex < 16 := by
  have h := (List.getElem?_eq_some.1 hsub).1
  simpa [ATLAS_CONFIG] using h

/-- One row of a sub-grid times the number of rows is the side of the main cell. -/
theorem subRows_mul_height (subCols subRows : ℕ) (W : ℚ) (hr : 0 < subRows) :
    (subRows : ℚ) * (W * ((subCols : ℚ) / (subRows : ℚ))) = W * subCols := by
  have : (subRows : ℚ) ≠ 0 := by exact_mod_cast hr.ne.symm
  field_simp

/-! ## C3 -/

/-- C3 (counterexample): category 3 (sub-grid 2 x 2, last main column), variant 1 (last
sub-column), width 100, reached by `createAssetElement` with draws 1/4 (variant) and 5/7
(scale): the scaled atlas is 800 wide and the visible region spans `[704, 804]`
horizontally. -/
theorem C3_counterexample :
    ∃ obj, createAssetElement ATLAS_CONFIG 100 3 (fun n => if n = 1 then 5 / 7 else 1 / 4) 0
        = some obj ∧
      obj = assetLayout ATLAS_CONFIG 2 2 3 1 100 20 (-5) false 90 ∧
      obj.w = 100 ∧ obj.element.imgWidth = 800 ∧
      (visibleRegion obj.element).x = 704 ∧ (visibleRegion obj.element).w = 100 ∧
      ¬ withinAtlas obj.element (visibleRegion obj.element) := by
  have hobj : createAssetElement ATLAS_CONFIG 100 3 (fun n => if n = 1 then 5 / 7 else 1 / 4) 0
      = some (assetLayout ATLAS_CONFIG 2 2 3 1 100 20 (-5) false 90) := by
    simp only [createAssetElement, ATLAS_CONFIG]
    norm_num
  refine ⟨_, hobj, rfl, ?_, ?_, ?_, ?_, ?_⟩
  · simp only [assetLayout]
  · norm_num [assetLayout]
  · norm_num [assetLayout, visibleRegion, ATLAS_CONFIG, Int.tmod]
  · simp only [assetLayout, visibleRegion]
  · norm_num [withinAtlas, assetLayout, visibleRegion, ATLAS_CONFIG, Int.tmod]

/-- C3 (amended): for a category of `ATLAS_CONFIG`, a variant index in range and a width
`W > 0`, the region that `createAssetElement` makes visible (window `W x (H - 4)`, shifted by
4 px to the right and 2 px down from the variant cell) lies within
`[0, totalWidth + 4] x [0, totalHeight]`; it lies within the scaled atlas bounds whenever
`W >= 4` and the variant is not in the last sub-column of a category of the last main
column. -/
theorem C3_visible_region_bounds (typeIndex subCols subRows v : ℕ) (W d dl : ℚ) (fv : Bool)
    (rot : ℤ) (e : AssetElement)
    (hsub : ATLAS_CONFIG.subgrids[typeIndex]? = some (subCols, subRows))
    (hv : v < subCols * subRows) (hW : 0 < W)
    (he : e = (assetLayout ATLAS_CONFIG subCols subRows typeIndex (v : ℤ) W d dl fv rot).element) :
    0 ≤ (visibleRegion e).x ∧ (visibleRegion e).x + (visibleRegion e).w ≤ e.imgWidth + 4 ∧
    0 ≤ (visibleRegion e).y ∧ (visibleRegion e).y + (visibleRegion e).h ≤ e.imgHeight ∧
    ((typeIndex % 4 ≠ 3 ∨ v % subCols ≠ subCols - 1) → 4 ≤ W →
      withinAtlas e (visibleRegion e)) := by
  have hidx := subgrids_index_lt typeIndex subCols subRows hsub
  obtain ⟨hc, hr, hsc, hsr⟩ := variant_cell_bounds subCols subRows v hv
  obtain ⟨hiw, hih⟩ := assetLayout_imgSize subCols subRows typeIndex (v : ℤ) W d dl fv rot
  have hreg := visibleRegion_assetLayout subCols subRows typeIndex v W d dl fv rot
  rw [← he] at hiw hih hreg
  have hmul := subRows_mul_height subCols subRows W hr
  have hmc : ((typeIndex % 4 : ℕ) : ℚ) ≤ 3 := by
    have : typeIndex % 4 ≤ 3 := by omega
    exact_mod_cast this
  have hmr : ((typeIndex / 4 : ℕ) : ℚ) ≤ 3 := by
    have : typeIndex / 4 ≤ 3 := by omega
    exact_mod_cast this
  have hmc0 : (0 : ℚ) ≤ ((typeIndex % 4 : ℕ) : ℚ) := Nat.cast_nonneg _
  have hmr0 : (0 : ℚ) ≤ ((typeIndex / 4 : ℕ) : ℚ) := Nat.cast_nonneg _
  have hsc0 : (0 : ℚ) ≤ ((v % subCols : ℕ) : ℚ) := Nat.cast_nonneg _
  have hsr0 : (0 : ℚ) ≤ ((v / subCols : ℕ) : ℚ) := Nat.cast_nonneg _
  have hscq : ((v % subCols : ℕ) : ℚ) + 1 ≤ (subCols : ℚ) := by exact_mod_cast hsc
  have hsrq : ((v / subCols : ℕ) : ℚ) + 1 ≤ (subRows : ℚ) := by exact_mod_cast hsr
  have hcq : (1 : ℚ) ≤ (subCols : ℚ) := by exact_mod_cast hc
  have hrq : (0 : ℚ) < (subRows : ℚ) := by exact_mod_cast hr
  have hM : 0 < W * (subCols : ℚ) := by positivity
  have hH : 0 < W * ((subCols : ℚ) / (subRows : ℚ)) := by positivity
  have k1 : ((typeIndex % 4 : ℕ) : ℚ) * (W * subCols) ≤ 3 * (W * subCols) :=
    mul_le_mul_of_nonneg_right hmc hM.le
  have k2 : ((typeIndex / 4 : ℕ) : ℚ) * (W * subCols) ≤ 3 * (W * subCols) :=
    mul_le_mul_of_nonneg_right hmr hM.le
  have k3 : (((v % subCols : ℕ) : ℚ) + 1) * W ≤ (subCols : ℚ) * W :=
    mul_le_mul_of_nonneg_right hscq hW.le
  have k4 : (((v / subCols : ℕ) : ℚ) + 1) * (W * ((subCols : ℚ) / (subRows : ℚ)))
      ≤ (subRows : ℚ) * (W * ((subCols : ℚ) / (subRows : ℚ))) :=
    mul_le_mul_of_nonneg_right hsrq hH.le
  rw [hmul] at k4
  have p1 := mul_nonneg hmc0 hM.le
  have p2 := mul_nonneg hmr0 hM.le
  have p3 := mul_nonneg hsc0 hW.le
  have p4 := mul_nonneg hsr0 hH.le
  have k5 : W ≤ W * (subCols : ℚ) := by nlinarith
  have hy : (visibleRegion e).y + (visibleRegion e).h ≤ e.imgHeight := by
    rw [hreg, hih]; simp only; linarith
  have hx0 : 0 ≤ (visibleRegion e).x := by rw [hreg]; simp only; linarith
  have hy0 : 0 ≤ (visibleRegion e).y := by rw [hreg]; simp only; linarith
  refine ⟨hx0, ?_, hy0, hy, ?_⟩
  · rw [hreg, hiw]; simp only; linarith
  · intro hcase hW4
    refine ⟨hx0, ?_, hy0, hy⟩
    rw [hreg, hiw]; simp only
    rcases hcase with h | h
    · have h2 : typeIndex % 4 ≤ 2 := by omega
      have h2q : ((typeIndex % 4 : ℕ) : ℚ) ≤ 2 := by exact_mod_cast h2
      have k6 : ((typeIndex % 4 : ℕ) : ℚ) * (W * subCols) ≤ 2 * (W * subCols) :=
        mul_le_mul_of_nonneg_right h2q hM.le
      linarith
    · have h2 : v % subCols + 2 ≤ subCols := by omega
      have h2q : ((v % subCols : ℕ) : ℚ) + 2 ≤ (subCols : ℚ) := by exact_mod_cast h2
      have k6 : (((v % subCols : ℕ) : ℚ) + 2) * W ≤ (subCols : ℚ) * W :=
        mul_le_mul_of_nonneg_right h2q hW.le
      linarith

/-- C3 (amended) applied to category 5, variant 2, width 60. -/
theorem C3_visible_region_bounds_witness :
    ATLAS_CONFIG.subgrids[5]? = some (4, 3) ∧ 2 < 4 * 3 ∧ (0 : ℚ) < 60 ∧
    sampleElement = (assetLayout ATLAS_CONFIG 4 3 5 ((2 : ℕ) : ℤ) 60 20 (-5) false 90).element ∧
    (0 ≤ (visibleRegion sampleElement).x ∧
      (visibleRegion sampleElement).x + (visibleRegion sampleElement).w
        ≤ sampleElement.imgWidth + 4 ∧
      0 ≤ (visibleRegion sampleElement).y ∧
      (visibleRegion sampleElement).y + (visibleRegion sampleElement).h
        ≤ sampleElement.imgHeight ∧
      ((5 % 4 ≠ 3 ∨ 2 % 4 ≠ 4 - 1) → (4 : ℚ) ≤ 60 →
        withinAtlas sampleElement (visibleRegion sampleElement))) :=
  ⟨rfl, by decide, by norm_num, rfl,
    C3_visible_region_bounds 5 4 3 2 60 20 (-5) false 90 sampleElement rfl (by decide)
      (by norm_num) rfl⟩

/-! ## C4 -/

/-- C4: for a category of `ATLAS_CONFIG`, a width `W > 0` and two distinct variant indices in
range, the regions of the scaled atlas that `createAssetElement` shows for the two variants do
not intersect. -/
theorem C4_variant_crops_disjoint (typeIndex subCols subRows v1 v2 : ℕ) (W d1 dl1 d2 dl2 : ℚ)
    (fv1 fv2 : Bool) (rot1 rot2 : ℤ)
    (hsub : ATLAS_CONFIG.subgrids[typeIndex]? = some (subCols, subRows))
    (hv1 : v1 < subCols * subRows) (hv2 : v2 < subCols * subRows) (hne : v1 ≠ v2)
    (hW : 0 < W) :
    ¬ intersects
      (visibleRegion
        (assetLayout ATLAS_CONFIG subCols subRows typeIndex (v1 : ℤ) W d1 dl1 fv1 rot1).element)
      (visibleRegion
        (assetLayout ATLAS_CONFIG subCols subRows typeIndex (v2 : ℤ) W d2 dl2 fv2 rot2).element)
    := by
  have _hidx := subgrids_index_lt typeIndex subCols subRows hsub
  have _hr2 := variant_cell_bounds subCols subRows v2 hv2
  obtain ⟨hc, hr, _, _⟩ := variant_cell_bounds subCols subRows v1 hv1
  rw [visibleRegion_assetLayout, visibleRegion_assetLayout]
  have hrq : (0 : ℚ) < (subRows : ℚ) := by exact_mod_cast hr
  have hcq : (0 : ℚ) < (subCols : ℚ) := by exact_mod_cast hc
  have hH : 0 < W * ((subCols : ℚ) / (subRows : ℚ)) := by positivity
  have hcell : v1 % subCols ≠ v2 % subCols ∨ v1 / subCols ≠ v2 / subCols := by
    by_contra hcon
    push_neg at hcon
    apply hne
    rw [← Nat.div_add_mod v1 subCols, ← Nat.div_add_mod v2 subCols, hcon.1, hcon.2]
  have step : ∀ (a b : ℕ) (L : ℚ), 0 < L → a < b → (a : ℚ) * L + L ≤ (b : ℚ) * L := by
    intro a b L hL hab
    have h1 : (a : ℚ) + 1 ≤ (b : ℚ) := by exact_mod_cast hab
    have := mul_le_mul_of_nonneg_right h1 hL.le
    linarith
  unfold intersects
  simp only
  rintro ⟨hx1, hx2, hy1, hy2⟩
  rcases hcell with h | h
  · rcases Nat.lt_or_gt_of_ne h with hlt | hgt
    · have := step _ _ W hW hlt
      linarith
    · have := step _ _ W hW hgt
      linarith
  · rcases Nat.lt_or_gt_of_ne h with hlt | hgt
    · have := step _ _ _ hH hlt
      linarith
    · have := step _ _ _ hH hgt
      linarith

/-- C4 applied to category 5 (sub-grid 4 x 3), variants 2 and 6, width 60. -/
theorem C4_variant_crops_disjoint_witness :
    ATLAS_CONFIG.subgrids[5]? = some (4, 3) ∧ 2 < 4 * 3 ∧ 6 < 4 * 3 ∧ 2 ≠ 6 ∧ (0 : ℚ) < 60 ∧
    ¬ intersects
      (visibleRegion (assetLayout ATLAS_CONFIG 4 3 5 ((2 : ℕ) : ℤ) 60 20 (-5) false 90).element)
      (visibleRegion (assetLayout ATLAS_CONFIG 4 3 5 ((6 : ℕ) : ℤ) 60 30 (-7) true 45).element) :=
  ⟨rfl, by decide, by decide, by decide, by norm_num,
    C4_variant_crops_disjoint 5 4 3 2 6 60 20 (-5) 30 (-7) false true 90 45 rfl (by decide)
      (by decide) (by decide) (by norm_num)⟩

/-! ## C9 -/

/-- With all weights zero the selector returns index 0 for every value of `Math.random()`. -/
theorem getRandomTypeIndex_all_zero (cfg : AtlasConfig) (hzero : ∀ w ∈ cfg.weights, w = 0)
    (r : ℚ) : getRandomTypeIndex cfg r = 0 := by
  unfold getRandomTypeIndex selectIndex
  cases hw : cfg.weights with
  | nil => simp [walk]
  | cons w ws =>
    have hw0 : w = 0 := hzero w (by rw [hw]; exact List.mem_cons_self w ws)
    have htot : totalWeight (w :: ws) = 0 := by
      rw [totalWeight_eq_sum]
      apply List.sum_eq_zero
      intro x hx
      exact hzero x (by rw [hw]; exact hx)
    rw [htot, hw0]
    simp [walk]

/-- C9 (counterexample): with an all-zero weight vector whose length also differs from that of
`subgrids`, `init()` creates the container (no error is reported), `getRandomTypeIndex`
returns the category index 0, and a pass on a viewport of non-positive size runs to its end
and places an instance. -/
theorem C9_counterexample :
    BgAssetManager.constructor.init.container = some [] ∧
    getRandomTypeIndex { cols := 4, rows := 4, subgrids := [(1, 1)], weights := [0, 0] } (1 / 2)
      = 0 ∧
    (0 : ℕ) < ([0, 0] : List ℚ).length ∧
    ∃ res, generateAssets { cols := 4, rows := 4, subgrids := [(1, 1)], weights := [0, 0] }
        (fun _ => 1 / 2) 0 (-10) BgAssetManager.constructor.init = some res ∧
      res.manager.placedRects ≠ [] := by
  refine ⟨rfl, ?_, by simp, ?_⟩
  · exact getRandomTypeIndex_all_zero _ (by simp) _
  · obtain ⟨st, hst⟩ := generateLoop_isSome
      { cols := 4, rows := 4, subgrids := [(1, 1)], weights := [0, 0] } (fun _ => 1 / 2) 0 (-10)
      20 100 maxAttempts
      (fun r k => by
        rw [getRandomTypeIndex_all_zero _ (by simp)]
        exact createAssetElement_isSome _ _ _ _ _ (by simp))
      (acceptState { attempts := 0, count := 0, placedRects := [], children := [], cursor := 0 }
        (assetLayout { cols := 4, rows := 4, subgrids := [(1, 1)], weights := [0, 0] } 1 1 0 0 85
          25 (-10) false 180) (-85 / 2) (-95 / 2))
    have hrun : generateLoop { cols := 4, rows := 4, subgrids := [(1, 1)], weights := [0, 0] }
        (fun _ => 1 / 2) 0 (-10) 20 100 maxAttempts
        { attempts := 0, count := 0, placedRects := [], children := [], cursor := 0 }
        = some st := by
      rw [generateLoop_unfold, ← hst]
      have hti : getRandomTypeIndex
          { cols := 4, rows := 4, subgrids := [(1, 1)], weights := [0, 0] } (1 / 2) = 0 :=
        getRandomTypeIndex_all_zero _ (by simp) _
      have hcr : createAssetElement
          { cols := 4, rows := 4, subgrids := [(1, 1)], weights := [0, 0] } 100 0
          (fun _ => 1 / 2) 1 = some (assetLayout
            { cols := 4, rows := 4, subgrids := [(1, 1)], weights := [0, 0] } 1 1 0 0 85
            25 (-10) false 180) := by
        simp only [createAssetElement]
        norm_num
      simp only [hti, hcr]
      norm_num [maxAttempts, checkCollision, assetLayout]
    obtain ⟨hinv, _⟩ := generateLoop_induction
      (fun t => t.placedRects ≠ []) _ _ _ _ _ _ _
      (fun t a _ _ _ _ _ => by simp [acceptState])
      (fun t ht _ _ => by simpa [rejectState] using ht)
      _ st (by simp [acceptState]) hst
    have hgen : generateAssets { cols := 4, rows := 4, subgrids := [(1, 1)], weights := [0, 0] }
        (fun _ => 1 / 2) 0 (-10) BgAssetManager.constructor.init =
        some { manager := { container := some st.children, assets := [],
                            placedRects := st.placedRects, maxAssets := 20, wrapperSize := 100 }
               attempts := st.attempts
               count := st.count } := by
      exact generateAssets_of_loop _ _ _ _ BgAssetManager.constructor.init [] st rfl hrun
    exact ⟨_, hgen, hinv⟩

/-- C9 (amended): no configuration is rejected. `init()` always creates the container and
reports no error, and when all weights are zero `getRandomTypeIndex` returns the category
index 0 for every value of `Math.random()`. -/
theorem C9_no_validation (cfg : AtlasConfig) (s : BgAssetManager) (r : ℚ)
    (hzero : ∀ w ∈ cfg.weights, w = 0) :
    s.init.container = some [] ∧ getRandomTypeIndex cfg r = 0 :=
  ⟨rfl, getRandomTypeIndex_all_zero cfg hzero r⟩

/-- C9 (amended) applied to an all-zero weight vector. -/
theorem C9_no_validation_witness :
    (∀ w ∈ ({ cols := 4, rows := 4, subgrids := [(1, 1)], weights := [0, 0] } :
      AtlasConfig).weights, w = 0) ∧
    BgAssetManager.constructor.init.container = some [] ∧
    getRandomTypeIndex { cols := 4, rows := 4, subgrids := [(1, 1)], weights := [0, 0] } (1 / 2)
      = 0 :=
  ⟨by simp,
    C9_no_validation { cols := 4, rows := 4, subgrids := [(1, 1)], weights := [0, 0] }
      BgAssetManager.constructor (1 / 2) (by simp)⟩

/-! ## C12 -/

/-- C12: for the two-category weight vector `[1, 0]` the selector returns index 0 for every
draw `u` in `[0, 1)`, both as the walk on `u` and as `getRandomTypeIndex` on the value `u` of
`Math.random()` (the total weight is 1). -/
theorem C12_weights_one_zero (u : ℚ) (h0 : 0 ≤ u) (h1 : u < 1) :
    selectIndex [1, 0] u = 0 ∧
    getRandomTypeIndex { cols := 2, rows := 1, subgrids := [(1, 1), (1, 1)], weights := [1, 0] } u
      = 0 := by
  have _hnonneg := h0
  have hu : u - 1 ≤ 0 := by linarith
  have hsel : selectIndex [1, 0] u = 0 := by simp [selectIndex, walk, hu]
  refine ⟨hsel, ?_⟩
  have htot : totalWeight [1, 0] = 1 := by norm_num [totalWeight]
  simp only [getRandomTypeIndex, htot, mul_one]
  exact hsel

/-- C12 applied to the draw 1/2. -/
theorem C12_weights_one_zero_witness :
    (0 : ℚ) ≤ 1 / 2 ∧ (1 / 2 : ℚ) < 1 ∧ selectIndex [1, 0] (1 / 2) = 0 ∧
    getRandomTypeIndex { cols := 2, rows := 1, subgrids := [(1, 1), (1, 1)], weights := [1, 0] }
      (1 / 2) = 0 :=
  ⟨by norm_num, by norm_num, C12_weights_one_zero (1 / 2) (by norm_num) (by norm_num)⟩

/-! ## C13 -/

/-- C13: with the shipped `ATLAS_CONFIG` (16 weights, total 96, weight 0 at index 11 only),
`getRandomTypeIndex` does not return 11 for any value `r` in `[0, 1)` of `Math.random()`;
the index it returns is in range and has a positive weight. -/
theorem C13_disabled_category_never_selected (r : ℚ) (h0 : 0 ≤ r) (h1 : r < 1) :
    ATLAS_CONFIG.weights.length = 16 ∧ totalWeight ATLAS_CONFIG.weights = 96 ∧
    (∀ i (hi : i < ATLAS_CONFIG.weights.length), ATLAS_CONFIG.weights[i] = 0 ↔ i = 11) ∧
    getRandomTypeIndex ATLAS_CONFIG r ≠ 11 ∧
    ∃ h : getRandomTypeIndex ATLAS_CONFIG r < ATLAS_CONFIG.weights.length,
      0 < ATLAS_CONFIG.weights[getRandomTypeIndex ATLAS_CONFIG r] := by
  have _hnonneg := h0
  have htot := ATLAS_CONFIG_totalWeight
  have hle : r * totalWeight ATLAS_CONFIG.weights ≤ totalWeight ATLAS_CONFIG.weights := by
    rw [htot]; linarith
  obtain ⟨hlt, hpos⟩ := selectIndex_weight_pos ATLAS_CONFIG.weights
    (r * totalWeight ATLAS_CONFIG.weights) ATLAS_CONFIG_wellFormed.1 ATLAS_CONFIG_wellFormed.2.1
    hle (Or.inr (by norm_num [ATLAS_CONFIG]))
  have hzero : ∀ i (hi : i < ATLAS_CONFIG.weights.length),
      ATLAS_CONFIG.weights[i] = 0 ↔ i = 11 := by
    intro i hi
    have hi16 : i < 16 := by simpa [ATLAS_CONFIG] using hi
    interval_cases i <;> simp [ATLAS_CONFIG]
  refine ⟨by simp [ATLAS_CONFIG], htot, hzero, ?_, hlt, hpos⟩
  intro h11
  have h := (hzero _ hlt).2 h11
  rw [h] at hpos
  exact lt_irrefl 0 hpos

/-- C13 applied to the value 11/12 of `Math.random()` (the draw 88, the running sum at
indices 10 and 11). -/
theorem C13_disabled_category_never_selected_witness :
    (0 : ℚ) ≤ 11 / 12 ∧ (11 / 12 : ℚ) < 1 ∧
    ATLAS_CONFIG.weights.length = 16 ∧ totalWeight ATLAS_CONFIG.weights = 96 ∧
    (∀ i (hi : i < ATLAS_CONFIG.weights.length), ATLAS_CONFIG.weights[i] = 0 ↔ i = 11) ∧
    getRandomTypeIndex ATLAS_CONFIG (11 / 12) ≠ 11 ∧
    ∃ h : getRandomTypeIndex ATLAS_CONFIG (11 / 12) < ATLAS_CONFIG.weights.length,
      0 < ATLAS_CONFIG.weights[getRandomTypeIndex ATLAS_CONFIG (11 / 12)] :=
  ⟨by norm_num, by norm_num,
    C13_disabled_category_never_selected (11 / 12) (by norm_num) (by norm_num)⟩

/-! ## C15 -/

/-- C15: the shipped `ATLAS_CONFIG` has `weights.length = cols * rows = subgrids.length = 16`,
and every index that `getRandomTypeIndex` returns, whatever the value of `Math.random()`, has
an entry in `subgrids`. -/
theorem C15_config_lengths_agree :
    ATLAS_CONFIG.weights.length = ATLAS_CONFIG.cols * ATLAS_CONFIG.rows ∧
    ATLAS_CONFIG.cols * ATLAS_CONFIG.rows = ATLAS_CONFIG.subgrids.length ∧
    ATLAS_CONFIG.subgrids.length = 16 ∧
    ∀ r : ℚ, ∃ sg, ATLAS_CONFIG.subgrids[getRandomTypeIndex ATLAS_CONFIG r]? = some sg := by
  refine ⟨rfl, rfl, rfl, fun r => ?_⟩
  have h := selectIndex_lt_length ATLAS_CONFIG.weights (r * totalWeight ATLAS_CONFIG.weights)
    ATLAS_CONFIG_wellFormed.1
  have hlt : getRandomTypeIndex ATLAS_CONFIG r < ATLAS_CONFIG.subgrids.length := by
    simpa [getRandomTypeIndex, ATLAS_CONFIG] using h
  exact ⟨_, List.getElem?_eq_getElem hlt⟩

/-- The sub-grid entries of the shipped configuration: both sides are positive and a cell is
at most twice as wide as high. -/
theorem ATLAS_CONFIG_subgrid_shape (typeIndex subCols subRows : ℕ)
    (hsub : ATLAS_CONFIG.subgrids[typeIndex]? = some (subCols, subRows)) :
    0 < subCols ∧ 0 < subRows ∧ subCols ≤ 2 * subRows := by
  have hidx := subgrids_index_lt typeIndex subCols subRows hsub
  interval_cases typeIndex <;>
    simp only [ATLAS_CONFIG, List.getElem?_cons_zero, List.getElem?_cons_succ,
      Option.some.injEq, Prod.mk.injEq] at hsub <;>
    omega

/-- With an entry in `subgrids`, `createAssetElement` lays out the variant
`Math.floor(Math.random() * totalVariants)` at the width `wrapperSize * scale`. -/
theorem createAssetElement_eq (cfg : AtlasConfig) (wrapperSize : ℚ) (typeIndex subCols subRows : ℕ)
    (rand : ℕ → ℚ) (k : ℕ) (hsub : cfg.subgrids[typeIndex]? = some (subCols, subRows)) :
    createAssetElement cfg wrapperSize typeIndex rand k =
      some (assetLayout cfg subCols subRows typeIndex
        ⌊rand k * ((subCols * subRows : ℕ) : ℚ)⌋ (wrapperSize * (0.5 + rand (k + 1) * 0.7))
        (15 + rand (k + 2) * 20) (-(rand (k + 3)) * 20) (decide (rand (k + 4) > 0.5))
        ⌊rand (k + 5) * 361⌋) := by
  unfold createAssetElement
  rw [hsub]

/-! ## C16 -/

/-- C16: for a category of `ATLAS_CONFIG` and a value `r` in `[0, 1)` of `Math.random()`, the
variant that `createAssetElement` lays out is `floor(r * subCols * subRows)`, an integer in
`[0, subCols * subRows)`; and each `v` of that range is chosen exactly for `r` in
`[v / n, (v + 1) / n)`, an interval of length `1 / n`, where `n = subCols * subRows`. -/
theorem C16_variant_uniform (typeIndex subCols subRows : ℕ)
    (hsub : ATLAS_CONFIG.subgrids[typeIndex]? = some (subCols, subRows)) (r : ℚ)
    (h0 : 0 ≤ r) (h1 : r < 1) :
    (∀ (wrapperSize : ℚ) (rand : ℕ → ℚ) (k : ℕ), rand k = r →
      createAssetElement ATLAS_CONFIG wrapperSize typeIndex rand k =
        some (assetLayout ATLAS_CONFIG subCols subRows typeIndex
          ⌊r * ((subCols * subRows : ℕ) : ℚ)⌋ (wrapperSize * (0.5 + rand (k + 1) * 0.7))
          (15 + rand (k + 2) * 20) (-(rand (k + 3)) * 20) (decide (rand (k + 4) > 0.5))
          ⌊rand (k + 5) * 361⌋)) ∧
    0 ≤ ⌊r * ((subCols * subRows : ℕ) : ℚ)⌋ ∧
    ⌊r * ((subCols * subRows : ℕ) : ℚ)⌋ < ((subCols * subRows : ℕ) : ℤ) ∧
    ∀ v : ℕ, v < subCols * subRows →
      {t : ℚ | 0 ≤ t ∧ t < 1 ∧ ⌊t * ((subCols * subRows : ℕ) : ℚ)⌋ = (v : ℤ)} =
        Set.Ico ((v : ℚ) / ((subCols * subRows : ℕ) : ℚ))
          (((v : ℚ) + 1) / ((subCols * subRows : ℕ) : ℚ)) ∧
      ((v : ℚ) + 1) / ((subCols * subRows : ℕ) : ℚ) - (v : ℚ) / ((subCols * subRows : ℕ) : ℚ)
        = 1 / ((subCols * subRows : ℕ) : ℚ) := by
  obtain ⟨hc, hr, _⟩ := ATLAS_CONFIG_subgrid_shape typeIndex subCols subRows hsub
  have hn : 0 < subCols * subRows := Nat.mul_pos hc hr
  refine ⟨fun wrapperSize rand k hk => ?_, ?_⟩
  · rw [← hk]
    exact createAssetElement_eq ATLAS_CONFIG wrapperSize typeIndex subCols subRows rand k hsub
  generalize subCols * subRows = n at hn ⊢
  have hnq : (0 : ℚ) < (n : ℚ) := by exact_mod_cast hn
  refine ⟨?_, ?_, ?_⟩
  · exact Int.floor_nonneg.2 (mul_nonneg h0 hnq.le)
  · rw [Int.floor_lt]
    push_cast
    nlinarith
  · intro v hv
    have hvq : (v : ℚ) + 1 ≤ (n : ℚ) := by exact_mod_cast hv
    refine ⟨?_, by field_simp⟩
    ext t
    simp only [Set.mem_setOf_eq, Set.mem_Ico]
    rw [Int.floor_eq_iff, div_le_iff₀ hnq, lt_div_iff₀ hnq]
    push_cast
    constructor
    · rintro ⟨_, _, h2, h3⟩
      exact ⟨h2, h3⟩
    · rintro ⟨h2, h3⟩
      have hv0 : (0 : ℚ) ≤ (v : ℚ) := Nat.cast_nonneg v
      refine ⟨?_, ?_, h2, h3⟩
      · by_contra hneg
        push_neg at hneg
        nlinarith
      · by_contra hge
        push_neg at hge
        nlinarith

/-- C16 applied to category 5 (sub-grid 4 x 3) and the value 1/2 of `Math.random()`. -/
theorem C16_variant_uniform_witness :
    ATLAS_CONFIG.subgrids[5]? = some (4, 3) ∧ (0 : ℚ) ≤ 1 / 2 ∧ (1 / 2 : ℚ) < 1 ∧
    ((∀ (wrapperSize : ℚ) (rand : ℕ → ℚ) (k : ℕ), rand k = 1 / 2 →
      createAssetElement ATLAS_CONFIG wrapperSize 5 rand k =
        some (assetLayout ATLAS_CONFIG 4 3 5
          ⌊(1 / 2 : ℚ) * ((4 * 3 : ℕ) : ℚ)⌋ (wrapperSize * (0.5 + rand (k + 1) * 0.7))
          (15 + rand (k + 2) * 20) (-(rand (k + 3)) * 20) (decide (rand (k + 4) > 0.5))
          ⌊rand (k + 5) * 361⌋)) ∧
    0 ≤ ⌊(1 / 2 : ℚ) * ((4 * 3 : ℕ) : ℚ)⌋ ∧
    ⌊(1 / 2 : ℚ) * ((4 * 3 : ℕ) : ℚ)⌋ < ((4 * 3 : ℕ) : ℤ) ∧
    ∀ v : ℕ, v < 4 * 3 →
      {t : ℚ | 0 ≤ t ∧ t < 1 ∧ ⌊t * ((4 * 3 : ℕ) : ℚ)⌋ = (v : ℤ)} =
        Set.Ico ((v : ℚ) / ((4 * 3 : ℕ) : ℚ)) (((v : ℚ) + 1) / ((4 * 3 : ℕ) : ℚ)) ∧
      ((v : ℚ) + 1) / ((4 * 3 : ℕ) : ℚ) - (v : ℚ) / ((4 * 3 : ℕ) : ℚ)
        = 1 / ((4 * 3 : ℕ) : ℚ)) :=
  ⟨rfl, by norm_num, by norm_num, C16_variant_uniform 5 4 3 rfl (1 / 2) (by norm_num)
    (by norm_num)⟩

/-! ## C18 -/

/-- C18 (counterexample): for category 5 (sub-grid 4 x 3), variant 2 and width 60 the claimed
translation is `(-360, -240)` and the claimed clip window `60 x 80`; the code translates the
image by `(-364, -242)` and clips it to `60 x 76`. -/
theorem C18_counterexample :
    ATLAS_CONFIG.subgrids[5]? = some (4, 3) ∧
    ((5 % 4 : ℕ) : ℚ) * (60 * 4) + ((2 % 4 : ℕ) : ℚ) * 60 = 360 ∧
    ((5 / 4 : ℕ) : ℚ) * (60 * 4) + ((2 / 4 : ℕ) : ℚ) * (60 * 4 / 3) = 240 ∧
    (60 : ℚ) * 4 / 3 = 80 ∧
    (assetLayout ATLAS_CONFIG 4 3 5 2 60 20 (-5) false 90).element.translateX = -364 ∧
    (assetLayout ATLAS_CONFIG 4 3 5 2 60 20 (-5) false 90).element.translateY = -242 ∧
    (assetLayout ATLAS_CONFIG 4 3 5 2 60 20 (-5) false 90).element.width = 60 ∧
    (assetLayout ATLAS_CONFIG 4 3 5 2 60 20 (-5) false 90).element.height = 76 ∧
    ¬ ((assetLayout ATLAS_CONFIG 4 3 5 2 60 20 (-5) false 90).element.translateX = -360 ∧
       (assetLayout ATLAS_CONFIG 4 3 5 2 60 20 (-5) false 90).element.translateY = -240 ∧
       (assetLayout ATLAS_CONFIG 4 3 5 2 60 20 (-5) false 90).element.height = 80) := by
  have hx : (assetLayout ATLAS_CONFIG 4 3 5 2 60 20 (-5) false 90).element.translateX = -364 := by
    norm_num [assetLayout, ATLAS_CONFIG, Int.tmod]
  have hy : (assetLayout ATLAS_CONFIG 4 3 5 2 60 20 (-5) false 90).element.translateY = -242 := by
    norm_num [assetLayout, ATLAS_CONFIG, Int.tmod]
  have hh : (assetLayout ATLAS_CONFIG 4 3 5 2 60 20 (-5) false 90).element.height = 76 := by
    norm_num [assetLayout]
  refine ⟨rfl, by norm_num, by norm_num, by norm_num, hx, hy, rfl, hh, ?_⟩
  rintro ⟨h, _, _⟩
  rw [hx] at h
  norm_num at h

/-- C18 (amended): for every category index, variant index and width `W`, with
`mainCellSize = W * subCols`, `H = W * subCols / subRows`,
`(mainCol, mainRow) = (categoryIndex mod 4, categoryIndex div 4)` and
`(subCol, subRow) = (variantIndex mod subCols, variantIndex div subCols)`, the translation
applied to the image is `(-(mainCol * mainCellSize + subCol * W) - 4,
-(mainRow * mainCellSize + subRow * H) - 2)` and the clip window is `W x (H - 4)`; the
rectangle handed to the collision test is `W x H`. -/
theorem C18_translation_and_window (subCols subRows typeIndex v : ℕ) (W d dl : ℚ) (fv : Bool)
    (rot : ℤ) :
    (assetLayout ATLAS_CONFIG subCols subRows typeIndex (v : ℤ) W d dl fv rot).element.translateX
      = -(((typeIndex % 4 : ℕ) : ℚ) * (W * subCols) + ((v % subCols : ℕ) : ℚ) * W) - 4 ∧
    (assetLayout ATLAS_CONFIG subCols subRows typeIndex (v : ℤ) W d dl fv rot).element.translateY
      = -(((typeIndex / 4 : ℕ) : ℚ) * (W * subCols)
          + ((v / subCols : ℕ) : ℚ) * (W * (subCols : ℚ) / (subRows : ℚ))) - 2 ∧
    (assetLayout ATLAS_CONFIG subCols subRows typeIndex (v : ℤ) W d dl fv rot).element.width = W ∧
    (assetLayout ATLAS_CONFIG subCols subRows typeIndex (v : ℤ) W d dl fv rot).element.height
      = W * (subCols : ℚ) / (subRows : ℚ) - 4 ∧
    (assetLayout ATLAS_CONFIG subCols subRows typeIndex (v : ℤ) W d dl fv rot).w = W ∧
    (assetLayout ATLAS_CONFIG subCols subRows typeIndex (v : ℤ) W d dl fv rot).h
      = W * (subCols : ℚ) / (subRows : ℚ) := by
  have h1 : ⌊(typeIndex : ℚ) / ((ATLAS_CONFIG.cols : ℕ) : ℚ)⌋ = ((typeIndex / 4 : ℕ) : ℤ) :=
    Rat.floor_natCast_div_natCast typeIndex 4
  have h2 : ⌊(v : ℚ) / (subCols : ℚ)⌋ = ((v / subCols : ℕ) : ℤ) :=
    Rat.floor_natCast_div_natCast v subCols
  have h3 : Int.tmod (v : ℤ) (subCols : ℤ) = ((v % subCols : ℕ) : ℤ) :=
    (Int.ofNat_tmod v subCols).symm
  have h4 : typeIndex % ATLAS_CONFIG.cols = typeIndex % 4 := rfl
  refine ⟨?_, ?_, ?_, ?_, ?_, ?_⟩ <;>
    simp only [assetLayout, h1, h2, h3, h4, Int.cast_natCast] <;> ring

/-! ## More facts about the generation pass -/

/-- The first attempt of a pass with a positive target and a positive budget is accepted:
its candidate is tested against the empty placed set. -/
theorem generateLoop_first_attempt (cfg : AtlasConfig) (rand : ℕ → ℚ)
    (innerWidth innerHeight : ℚ) (maxAssets : ℕ) (wrapperSize : ℚ) (budget : ℕ)
    (assetObj : AssetObj) (hassets : 1 ≤ maxAssets) (hbudget : 1 ≤ budget)
    (hcreate : createAssetElement cfg wrapperSize (getRandomTypeIndex cfg (rand 0)) rand 1
      = some assetObj) :
    generateLoop cfg rand innerWidth innerHeight maxAssets wrapperSize budget
        { attempts := 0, count := 0, placedRects := [], children := [], cursor := 0 } =
      generateLoop cfg rand innerWidth innerHeight maxAssets wrapperSize budget
        (acceptState { attempts := 0, count := 0, placedRects := [], children := [], cursor := 0 }
          assetObj (rand 7 * (innerWidth - assetObj.w)) (rand 8 * (innerHeight - assetObj.h))) := by
  rw [generateLoop_unfold]
  have hcond : (0 : ℕ) < maxAssets ∧ (0 : ℕ) < budget := ⟨by omega, by omega⟩
  simp only [hcond, and_self, if_true, Nat.zero_add, hcreate, checkCollision, List.any_nil]

/-- Rectangles are only ever appended: what is placed stays placed until the loop ends. -/
theorem generateLoop_placed_mono (cfg : AtlasConfig) (rand : ℕ → ℚ)
    (innerWidth innerHeight : ℚ) (maxAssets : ℕ) (wrapperSize : ℚ) (budget : ℕ)
    (st st1 : PassState) (r : Rect) (hr : r ∈ st.placedRects)
    (hrun : generateLoop cfg rand innerWidth innerHeight maxAssets wrapperSize budget st
      = some st1) :
    r ∈ st1.placedRects :=
  (generateLoop_induction (fun t => r ∈ t.placedRects) cfg rand innerWidth innerHeight maxAssets
    wrapperSize budget
    (fun t a ht _ _ _ _ => by
      simp only [acceptState]
      exact List.mem_append_left _ ht)
    (fun t ht _ _ => by simpa only [rejectState] using ht)
    st st1 hr hrun).1

/-! ## C11 -/

/-- C11: run with attempt budget 1 and a target count of at least 1 from the cleared state,
the loop of `generateAssets` returns after exactly one attempt with exactly one placed
rectangle and one child in the container, for every random stream and viewport: the first
candidate meets an empty placed set and is accepted. -/
theorem C11_budget_one_places_one (rand : ℕ → ℚ) (innerWidth innerHeight : ℚ)
    (maxAssets : ℕ) (wrapperSize : ℚ) (htarget : 1 ≤ maxAssets) :
    ∃ st, generateLoop ATLAS_CONFIG rand innerWidth innerHeight maxAssets wrapperSize 1
        { attempts := 0, count := 0, placedRects := [], children := [], cursor := 0 } = some st ∧
      st.attempts = 1 ∧ st.count = 1 ∧ st.placedRects.length = 1 ∧ st.children.length = 1 := by
  obtain ⟨a, ha⟩ := ATLAS_CONFIG_create_isSome wrapperSize rand (rand 0) 1
  refine ⟨acceptState
    { attempts := 0, count := 0, placedRects := [], children := [], cursor := 0 } a
    (rand 7 * (innerWidth - a.w)) (rand 8 * (innerHeight - a.h)), ?_, rfl, rfl, rfl, rfl⟩
  rw [generateLoop_first_attempt ATLAS_CONFIG rand innerWidth innerHeight maxAssets wrapperSize 1
    a htarget (le_refl 1) ha, generateLoop_unfold]
  have hstop : ¬ ((acceptState
      { attempts := 0, count := 0, placedRects := [], children := [], cursor := 0 } a
      (rand 7 * (innerWidth - a.w)) (rand 8 * (innerHeight - a.h))).count < maxAssets ∧
    (acceptState
      { attempts := 0, count := 0, placedRects := [], children := [], cursor := 0 } a
      (rand 7 * (innerWidth - a.w)) (rand 8 * (innerHeight - a.h))).attempts < 1) := by
    simp [acceptState]
  rw [if_neg hstop]

/-- C11 applied to the target count 5 of the scenario, the constant stream 1/2 and a
1920 x 1080 viewport. -/
theorem C11_budget_one_places_one_witness :
    1 ≤ 5 ∧
    ∃ st, generateLoop ATLAS_CONFIG (fun _ => 1 / 2) 1920 1080 5 100 1
        { attempts := 0, count := 0, placedRects := [], children := [], cursor := 0 } = some st ∧
      st.attempts = 1 ∧ st.count = 1 ∧ st.placedRects.length = 1 ∧ st.children.length = 1 :=
  ⟨by decide, C11_budget_one_places_one (fun _ => 1 / 2) 1920 1080 5 100 (by decide)⟩

/-! ## C14 -/

/-- The size that `createAssetElement` returns: the width is `wrapperSize * scale` and the
height is the width times the sub-grid ratio of the category. -/
theorem createAssetElement_size (cfg : AtlasConfig) (wrapperSize : ℚ) (typeIndex : ℕ)
    (rand : ℕ → ℚ) (k : ℕ) (a : AssetObj)
    (h : createAssetElement cfg wrapperSize typeIndex rand k = some a) :
    ∃ subCols subRows, cfg.subgrids[typeIndex]? = some (subCols, subRows) ∧
      a.w = wrapperSize * (0.5 + rand (k + 1) * 0.7) ∧
      a.h = a.w * ((subCols : ℚ) / (subRows : ℚ)) := by
  cases hsub : cfg.subgrids[typeIndex]? with
  | none => simp [createAssetElement, hsub] at h
  | some sg =>
    obtain ⟨subCols, subRows⟩ := sg
    rw [createAssetElement_eq cfg wrapperSize typeIndex subCols subRows rand k hsub] at h
    have ha := (Option.some.inj h).symm
    refine ⟨subCols, subRows, rfl, ?_, ?_⟩ <;> rw [ha] <;> simp only [assetLayout]

/-- With the shipped configuration, base size 100 and draws in `[0, 1)`, an asset is between
50 and 120 px wide and less than 240 px high. -/
theorem ATLAS_CONFIG_asset_size (typeIndex : ℕ) (rand : ℕ → ℚ) (k : ℕ) (a : AssetObj)
    (hrand : ∀ n, 0 ≤ rand n ∧ rand n < 1)
    (h : createAssetElement ATLAS_CONFIG 100 typeIndex rand k = some a) :
    50 ≤ a.w ∧ a.w < 120 ∧ 0 < a.h ∧ a.h < 240 := by
  obtain ⟨subCols, subRows, hsub, hw, hh⟩ :=
    createAssetElement_size ATLAS_CONFIG 100 typeIndex rand k a h
  obtain ⟨hc, hr, hratio⟩ := ATLAS_CONFIG_subgrid_shape typeIndex subCols subRows hsub
  obtain ⟨h0, h1⟩ := hrand (k + 1)
  have hw1 : 50 ≤ a.w := by rw [hw]; norm_num; linarith
  have hw2 : a.w < 120 := by rw [hw]; norm_num; linarith
  have hcq : (0 : ℚ) < (subCols : ℚ) := by exact_mod_cast hc
  have hrq : (0 : ℚ) < (subRows : ℚ) := by exact_mod_cast hr
  have hq : (subCols : ℚ) ≤ 2 * (subRows : ℚ) := by exact_mod_cast hratio
  have hdiv0 : 0 < (subCols : ℚ) / (subRows : ℚ) := div_pos hcq hrq
  have hdiv2 : (subCols : ℚ) / (subRows : ℚ) ≤ 2 := by
    rw [div_le_iff₀ hrq]; exact hq
  refine ⟨hw1, hw2, ?_, ?_⟩
  · rw [hh]; exact mul_pos (by linarith) hdiv0
  · rw [hh]
    have : a.w * ((subCols : ℚ) / (subRows : ℚ)) ≤ a.w * 2 :=
      mul_le_mul_of_nonneg_left hdiv2 (by linarith)
    linarith

/-- A position `r * (viewport - size)` with `r` in `[0, 1)` lies in `[0, viewport - size]`
when the size fits in the viewport. -/
theorem position_in_range (r viewport size : ℚ) (h0 : 0 ≤ r) (h1 : r < 1)
    (hfit : size ≤ viewport) :
    0 ≤ r * (viewport - size) ∧ r * (viewport - size) ≤ viewport - size := by
  have hd : 0 ≤ viewport - size := by linarith
  exact ⟨mul_nonneg h0 hd, by nlinarith⟩

/-- C14 (counterexample): on a 60 x 40 viewport with every draw equal to 1/2, the pass places
a first rectangle of size `85 x 340/3` at `(-25/2, -110/3)`, outside the viewport. -/
theorem C14_counterexample :
    ∃ res, generateAssets ATLAS_CONFIG (fun _ => 1 / 2) 60 40 BgAssetManager.constructor.init
        = some res ∧
      ({ x := -25 / 2, y := -110 / 3, w := 85, h := 340 / 3 } : Rect) ∈ res.manager.placedRects ∧
      ∃ r ∈ res.manager.placedRects,
        ¬ (0 ≤ r.x ∧ r.x ≤ 60 - r.w ∧ 0 ≤ r.y ∧ r.y ≤ 40 - r.h) := by
  have hti : getRandomTypeIndex ATLAS_CONFIG (1 / 2) = 5 := by
    norm_num [getRandomTypeIndex, ATLAS_CONFIG, totalWeight, selectIndex, walk]
  have hcr : createAssetElement ATLAS_CONFIG 100 5 (fun _ => 1 / 2) 1
      = some (assetLayout ATLAS_CONFIG 4 3 5 6 85 25 (-10) false 180) := by
    simp only [createAssetElement, ATLAS_CONFIG]
    norm_num
  have hcr1 : createAssetElement ATLAS_CONFIG 100
      (getRandomTypeIndex ATLAS_CONFIG ((fun _ => 1 / 2 : ℕ → ℚ) 0)) (fun _ => 1 / 2) 1
      = some (assetLayout ATLAS_CONFIG 4 3 5 6 85 25 (-10) false 180) := by
    simp only [hti]
    exact hcr
  obtain ⟨st, hst⟩ := generateLoop_isSome ATLAS_CONFIG (fun _ => 1 / 2) 60 40 20 100 maxAttempts
    (fun r k => ATLAS_CONFIG_create_isSome 100 (fun _ => 1 / 2) r k)
    { attempts := 0, count := 0, placedRects := [], children := [], cursor := 0 }
  have hmem : ({ x := -25 / 2, y := -110 / 3, w := 85, h := 340 / 3 } : Rect) ∈ st.placedRects := by
    rw [generateLoop_first_attempt ATLAS_CONFIG (fun _ => 1 / 2) 60 40 20 100 maxAttempts _
      (by decide) (by decide) hcr1] at hst
    refine generateLoop_placed_mono _ _ _ _ _ _ _ _ st _ ?_ hst
    simp only [acceptState, List.nil_append, List.mem_singleton, Rect.mk.injEq]
    norm_num [assetLayout]
  have hgen := generateAssets_of_loop ATLAS_CONFIG (fun _ => 1 / 2) 60 40
    BgAssetManager.constructor.init [] st rfl hst
  refine ⟨_, hgen, hmem, _, hmem, ?_⟩
  norm_num


/-- C14 (amended): for every random stream with values in `[0, 1)`, every viewport and a
manager whose container exists and whose base size is 100, `generateAssets` returns and each
placed rectangle is between 50 and 120 px wide and less than 240 px high, has
`0 <= x <= viewportWidth - w` when `w <= viewportWidth`, and `0 <= y <= viewportHeight - h`
when `h <= viewportHeight`; so on a viewport of at least 120 x 240 every placed rectangle
lies inside the viewport. -/
theorem C14_placed_inside_viewport (rand : ℕ → ℚ) (innerWidth innerHeight : ℚ)
    (s : BgAssetManager) (c : List AssetElement) (hrand : ∀ n, 0 ≤ rand n ∧ rand n < 1)
    (hc : s.container = some c) (hsize : s.wrapperSize = 100) :
    ∃ res, generateAssets ATLAS_CONFIG rand innerWidth innerHeight s = some res ∧
      (∀ r ∈ res.manager.placedRects,
        50 ≤ r.w ∧ r.w < 120 ∧ 0 < r.h ∧ r.h < 240 ∧
        (r.w ≤ innerWidth → 0 ≤ r.x ∧ r.x ≤ innerWidth - r.w) ∧
        (r.h ≤ innerHeight → 0 ≤ r.y ∧ r.y ≤ innerHeight - r.h)) ∧
      (120 ≤ innerWidth → 240 ≤ innerHeight → ∀ r ∈ res.manager.placedRects,
        0 ≤ r.x ∧ r.x ≤ innerWidth - r.w ∧ 0 ≤ r.y ∧ r.y ≤ innerHeight - r.h) := by
  obtain ⟨st, hst, hres, _, _⟩ := generateAssets_run rand innerWidth innerHeight s c hc
  have hinv : ∀ r ∈ st.placedRects,
      50 ≤ r.w ∧ r.w < 120 ∧ 0 < r.h ∧ r.h < 240 ∧
      (r.w ≤ innerWidth → 0 ≤ r.x ∧ r.x ≤ innerWidth - r.w) ∧
      (r.h ≤ innerHeight → 0 ≤ r.y ∧ r.y ≤ innerHeight - r.h) := by
    refine (generateLoop_induction
      (fun t => ∀ r ∈ t.placedRects,
        50 ≤ r.w ∧ r.w < 120 ∧ 0 < r.h ∧ r.h < 240 ∧
        (r.w ≤ innerWidth → 0 ≤ r.x ∧ r.x ≤ innerWidth - r.w) ∧
        (r.h ≤ innerHeight → 0 ≤ r.y ∧ r.y ≤ innerHeight - r.h))
      ATLAS_CONFIG rand innerWidth innerHeight s.maxAssets s.wrapperSize maxAttempts
      ?_ ?_ _ st ?_ hst).1
    · intro t a ht _ _ hcreate _ r hr
      simp only [acceptState, List.mem_append, List.mem_singleton] at hr
      rcases hr with hr | hr
      · exact ht r hr
      · rw [hsize] at hcreate
        obtain ⟨b1, b2, b3, b4⟩ := ATLAS_CONFIG_asset_size _ rand _ a hrand hcreate
        subst hr
        refine ⟨b1, b2, b3, b4, fun hfit => ?_, fun hfit => ?_⟩
        · exact position_in_range _ _ _ (hrand _).1 (hrand _).2 hfit
        · exact position_in_range _ _ _ (hrand _).1 (hrand _).2 hfit
    · intro t ht _ _ r hr
      exact ht r (by simpa only [rejectState] using hr)
    · intro r hr
      simp at hr
  refine ⟨_, hres, hinv, fun hw hh r hr => ?_⟩
  obtain ⟨_, b2, _, b4, bx, hby⟩ := hinv r hr
  obtain ⟨x0, x1⟩ := bx (by linarith)
  obtain ⟨y0, y1⟩ := hby (by linarith)
  exact ⟨x0, x1, y0, y1⟩

/-- C14 (amended) applied to a freshly initialised manager, the constant stream 1/2 and a
1920 x 1080 viewport. -/
theorem C14_placed_inside_viewport_witness :
    (∀ n : ℕ, (0 : ℚ) ≤ (fun _ => 1 / 2 : ℕ → ℚ) n ∧ (fun _ => 1 / 2 : ℕ → ℚ) n < 1) ∧
    BgAssetManager.constructor.init.container = some [] ∧
    BgAssetManager.constructor.init.wrapperSize = 100 ∧
    ∃ res, generateAssets ATLAS_CONFIG (fun _ => 1 / 2) 1920 1080 BgAssetManager.constructor.init
        = some res ∧
      (∀ r ∈ res.manager.placedRects,
        50 ≤ r.w ∧ r.w < 120 ∧ 0 < r.h ∧ r.h < 240 ∧
        (r.w ≤ 1920 → 0 ≤ r.x ∧ r.x ≤ 1920 - r.w) ∧
        (r.h ≤ 1080 → 0 ≤ r.y ∧ r.y ≤ 1080 - r.h)) ∧
      ((120 : ℚ) ≤ 1920 → (240 : ℚ) ≤ 1080 → ∀ r ∈ res.manager.placedRects,
        0 ≤ r.x ∧ r.x ≤ 1920 - r.w ∧ 0 ≤ r.y ∧ r.y ≤ 1080 - r.h) :=
  ⟨fun _ => by norm_num, rfl, rfl,
    C14_placed_inside_viewport (fun _ => 1 / 2) 1920 1080 BgAssetManager.constructor.init []
      (fun _ => by norm_num) rfl rfl⟩

/-! ## Facts about timers and resize events -/

theorem length_le_countP_add (l : List Timer)
    (h : ∀ τ ∈ l, τ.delay = 100 ∨ τ.delay = 500) :
    l.length ≤ l.countP (fun τ => decide (τ.delay = 100))
      + l.countP (fun τ => decide (τ.delay = 500)) := by
  induction l with
  | nil => simp
  | cons a l ih =>
    have ih1 := ih (fun τ hτ => h τ (List.mem_cons_of_mem a hτ))
    rcases h a (List.mem_cons_self a l) with ha | ha
    · simp only [List.length_cons, List.countP_cons, ha, decide_True, if_true]
      norm_num
      omega
    · simp only [List.length_cons, List.countP_cons, ha, decide_True, if_true]
      norm_num
      omega

theorem timerInv_init (t0 : ℕ) : TimerInv (Page.load t0).init := by
  refine ⟨?_, ?_, ?_⟩ <;> simp [Page.load, Page.init, Page.setTimeout]

theorem timerInv_onResize (p : Page) (h : TimerInv p) : TimerInv p.onResize := by
  obtain ⟨hmem, h100, h500⟩ := h
  have hkept : ∀ τ ∈ (Page.clearTimeout p p.resizeTimer).pending,
      τ ∈ p.pending ∧ τ.delay = 100 := by
    intro τ hτ
    cases hr : p.resizeTimer with
    | none =>
      rw [hr] at hτ
      simp only [Page.clearTimeout] at hτ
      refine ⟨hτ, ?_⟩
      rcases hmem τ hτ with h1 | ⟨_, h2⟩
      · exact h1
      · rw [hr] at h2; exact absurd h2 (by simp)
    | some i =>
      rw [hr] at hτ
      simp only [Page.clearTimeout, List.mem_filter, decide_eq_true_eq] at hτ
      refine ⟨hτ.1, ?_⟩
      rcases hmem τ hτ.1 with h1 | ⟨_, h2⟩
      · exact h1
      · rw [hr] at h2
        exact absurd (Option.some.inj h2).symm hτ.2
  have hsub : (Page.clearTimeout p p.resizeTimer).pending.Sublist p.pending := by
    cases hr : p.resizeTimer with
    | none => simp [Page.clearTimeout]
    | some i => simp [Page.clearTimeout]
  refine ⟨?_, ?_, ?_⟩
  · intro τ hτ
    simp only [Page.onResize, Page.setTimeout, List.mem_append, List.mem_singleton] at hτ
    rcases hτ with hτ | hτ
    · exact Or.inl (hkept τ hτ).2
    · right
      subst hτ
      exact ⟨rfl, rfl⟩
  · simp only [Page.onResize, Page.setTimeout, List.countP_append]
    have := hsub.countP_le (fun τ => decide (τ.delay = 100))
    simp
    omega
  · simp only [Page.onResize, Page.setTimeout, List.countP_append]
    have hzero : (Page.clearTimeout p p.resizeTimer).pending.countP
        (fun τ => decide (τ.delay = 500)) = 0 := by
      rw [List.countP_eq_zero]
      intro τ hτ
      have := (hkept τ hτ).2
      simp [this]
    rw [hzero]
    simp

theorem timerInv_step (p q : Page) (h : TimerInv p) (hstep : Step p q) : TimerInv q := by
  cases hstep with
  | resize t ht => exact timerInv_onResize _ h
  | timer τ t rand innerWidth innerHeight res hτ ht hdue hrun =>
    obtain ⟨hmem, h100, h500⟩ := h
    have hsub : (p.pending.erase τ).Sublist p.pending := List.erase_sublist τ p.pending
    refine ⟨fun σ hσ => hmem σ (hsub.subset hσ), ?_, ?_⟩
    · exact le_trans (hsub.countP_le _) h100
    · exact le_trans (hsub.countP_le _) h500

theorem timerInv_reachable (p : Page) (h : PageReachable p) : TimerInv p := by
  obtain ⟨t0, hreach⟩ := h
  induction hreach with
  | refl => exact timerInv_init t0
  | tail _ hstep ih => exact timerInv_step _ _ ih hstep

/-! ## C19 -/

/-- C19 (counterexample): `init()` at time 0 schedules the first pass for time 100; a resize
at time 50 clears `_resizeTimer` (still `undefined`) and schedules another pass for time 550,
so two passes are pending. -/
theorem C19_counterexample :
    PageReachable (Page.onResize { (Page.load 0).init with now := 50 }) ∧
    (Page.onResize { (Page.load 0).init with now := 50 }).pending
      = [{ id := 1, delay := 100, due := 100 }, { id := 2, delay := 500, due := 550 }] ∧
    ¬ (Page.onResize { (Page.load 0).init with now := 50 }).pending.length ≤ 1 := by
  refine ⟨⟨0, Relation.ReflTransGen.single (Step.resize _ 50 (by simp [Page.load, Page.init,
    Page.setTimeout]))⟩, ?_, ?_⟩
  · simp [Page.onResize, Page.load, Page.init, Page.setTimeout, Page.clearTimeout]
  · simp [Page.onResize, Page.load, Page.init, Page.setTimeout, Page.clearTimeout]

/-- C19 (amended): at every moment after `init()`, whatever resize events and timer expiries
occurred, at most one pass scheduled by a resize (delay 500) is pending, since each resize
clears the one scheduled by the previous resize, and at most one first pass scheduled by
`init()` (delay 100) is pending, which a resize does not clear; so at most two passes are
pending, and at most one once the first pass has run. -/
theorem C19_pending_passes_bounded (p : Page) (h : PageReachable p) :
    p.pending.countP (fun τ => decide (τ.delay = 500)) ≤ 1 ∧
    p.pending.countP (fun τ => decide (τ.delay = 100)) ≤ 1 ∧
    p.pending.length ≤ 2 ∧
    ((∀ τ ∈ p.pending, τ.delay ≠ 100) → p.pending.length ≤ 1) := by
  obtain ⟨hmem, h100, h500⟩ := timerInv_reachable p h
  have hlen := length_le_countP_add p.pending (fun τ hτ => by
    rcases hmem τ hτ with h1 | ⟨h2, _⟩
    · exact Or.inl h1
    · exact Or.inr h2)
  refine ⟨h500, h100, by omega, fun hno => ?_⟩
  have hzero : p.pending.countP (fun τ => decide (τ.delay = 100)) = 0 := by
    rw [List.countP_eq_zero]
    intro τ hτ
    simp [hno τ hτ]
  omega

/-- C19 (amended) applied to the page after `init()` at time 0 and a resize at time 50. -/
theorem C19_pending_passes_bounded_witness :
    PageReachable (Page.onResize { (Page.load 0).init with now := 50 }) ∧
    (Page.onResize { (Page.load 0).init with now := 50 }).pending.countP
      (fun τ => decide (τ.delay = 500)) ≤ 1 ∧
    (Page.onResize { (Page.load 0).init with now := 50 }).pending.countP
      (fun τ => decide (τ.delay = 100)) ≤ 1 ∧
    (Page.onResize { (Page.load 0).init with now := 50 }).pending.length ≤ 2 ∧
    ((∀ τ ∈ (Page.onResize { (Page.load 0).init with now := 50 }).pending, τ.delay ≠ 100) →
      (Page.onResize { (Page.load 0).init with now := 50 }).pending.length ≤ 1) :=
  ⟨⟨0, Relation.ReflTransGen.single (Step.resize _ 50 (by simp [Page.load, Page.init,
      Page.setTimeout]))⟩,
    C19_pending_passes_bounded _ ⟨0, Relation.ReflTransGen.single (Step.resize _ 50
      (by simp [Page.load, Page.init, Page.setTimeout]))⟩⟩

/-! ## Facts about calls of `generateAssets` with and without a container -/

/-- Without a container `generateAssets` returns at its first line: no attempt is made and
the manager is left as it was. -/
theorem generateAssets_of_none (cfg : AtlasConfig) (rand : ℕ → ℚ) (innerWidth innerHeight : ℚ)
    (s : BgAssetManager) (hc : s.container = none) :
    generateAssets cfg rand innerWidth innerHeight s =
      some { manager := s, attempts := 0, count := 0 } := by
  simp only [generateAssets, hc]

/-- An attempt whose candidate collides with nothing is accepted. -/
theorem generateLoop_accept (cfg : AtlasConfig) (rand : ℕ → ℚ) (innerWidth innerHeight : ℚ)
    (maxAssets : ℕ) (wrapperSize : ℚ) (budget : ℕ) (st : PassState) (assetObj : AssetObj)
    (hcond : st.count < maxAssets ∧ st.attempts < budget)
    (hcreate : createAssetElement cfg wrapperSize (getRandomTypeIndex cfg (rand st.cursor)) rand
      (st.cursor + 1) = some assetObj)
    (hfree : checkCollision innerWidth innerHeight st.placedRects
      { x := rand (st.cursor + 7) * (innerWidth - assetObj.w)
        y := rand (st.cursor + 8) * (innerHeight - assetObj.h)
        w := assetObj.w, h := assetObj.h } = false) :
    generateLoop cfg rand innerWidth innerHeight maxAssets wrapperSize budget st =
      generateLoop cfg rand innerWidth innerHeight maxAssets wrapperSize budget
        (acceptState st assetObj (rand (st.cursor + 7) * (innerWidth - assetObj.w))
          (rand (st.cursor + 8) * (innerHeight - assetObj.h))) := by
  rw [generateLoop_unfold, if_pos hcond, hcreate]
  simp only [hfree, if_true]

/-- The number of placed rectangles does not decrease along the loop. -/
theorem generateLoop_length_mono (cfg : AtlasConfig) (rand : ℕ → ℚ)
    (innerWidth innerHeight : ℚ) (maxAssets : ℕ) (wrapperSize : ℚ) (budget : ℕ)
    (st st1 : PassState) (n : ℕ) (hn : n ≤ st.placedRects.length)
    (hrun : generateLoop cfg rand innerWidth innerHeight maxAssets wrapperSize budget st
      = some st1) :
    n ≤ st1.placedRects.length :=
  (generateLoop_induction (fun t => n ≤ t.placedRects.length) cfg rand innerWidth innerHeight
    maxAssets wrapperSize budget
    (fun t a ht _ _ _ _ => by
      simp only [acceptState, List.length_append, List.length_singleton]
      omega)
    (fun t ht _ _ => by simpa only [rejectState] using ht)
    st st1 hn hrun).1

/-- With the shipped configuration a pass that runs places at least one rectangle. -/
theorem generateAssets_places_one (rand : ℕ → ℚ) (innerWidth innerHeight : ℚ)
    (s : BgAssetManager) (c : List AssetElement) (hc : s.container = some c)
    (hmax : 1 ≤ s.maxAssets) :
    ∃ res, generateAssets ATLAS_CONFIG rand innerWidth innerHeight s = some res ∧
      1 ≤ res.manager.placedRects.length := by
  obtain ⟨st, hst, hres, _, _⟩ := generateAssets_run rand innerWidth innerHeight s c hc
  refine ⟨_, hres, ?_⟩
  obtain ⟨a, ha⟩ := ATLAS_CONFIG_create_isSome s.wrapperSize rand (rand 0) 1
  rw [generateLoop_first_attempt ATLAS_CONFIG rand innerWidth innerHeight s.maxAssets
    s.wrapperSize maxAttempts a hmax (by decide) ha] at hst
  exact generateLoop_length_mono _ _ _ _ _ _ _ _ st 1 (by simp [acceptState]) hst

/-- On the stream `twoPlacedStream` and a 1920 x 1080 viewport the first two attempts are both
accepted: a 57 x 57 rectangle at (186.3, 102.3), then one at (1676.7, 102.3). -/
theorem twoPlacedStream_places_two (st : PassState)
    (hrun : generateLoop ATLAS_CONFIG twoPlacedStream 1920 1080 20 100 maxAttempts
      { attempts := 0, count := 0, placedRects := [], children := [], cursor := 0 } = some st) :
    2 ≤ st.placedRects.length := by
  have hti : ∀ n, n ≠ 16 → getRandomTypeIndex ATLAS_CONFIG (twoPlacedStream n) = 0 := by
    intro n hn
    simp only [twoPlacedStream, hn, if_false]
    norm_num [getRandomTypeIndex, ATLAS_CONFIG, totalWeight, selectIndex, walk]
  have hcr : ∀ k, k + 5 < 16 ∨ 16 < k →
      createAssetElement ATLAS_CONFIG 100 0 twoPlacedStream k
        = some (assetLayout ATLAS_CONFIG 4 4 0 1 57 17 (-2) false 36) := by
    intro k hk
    have e0 : twoPlacedStream k = 1 / 10 := by simp only [twoPlacedStream]; rw [if_neg (by omega)]
    have e1 : twoPlacedStream (k + 1) = 1 / 10 := by
      simp only [twoPlacedStream]; rw [if_neg (by omega)]
    have e2 : twoPlacedStream (k + 2) = 1 / 10 := by
      simp only [twoPlacedStream]; rw [if_neg (by omega)]
    have e3 : twoPlacedStream (k + 3) = 1 / 10 := by
      simp only [twoPlacedStream]; rw [if_neg (by omega)]
    have e4 : twoPlacedStream (k + 4) = 1 / 10 := by
      simp only [twoPlacedStream]; rw [if_neg (by omega)]
    have e5 : twoPlacedStream (k + 5) = 1 / 10 := by
      simp only [twoPlacedStream]; rw [if_neg (by omega)]
    simp only [createAssetElement, ATLAS_CONFIG, e0, e1, e2, e3, e4, e5]
    norm_num
  have h1 := generateLoop_first_attempt ATLAS_CONFIG twoPlacedStream 1920 1080 20 100 maxAttempts
    (assetLayout ATLAS_CONFIG 4 4 0 1 57 17 (-2) false 36) (by decide) (by decide)
    (by rw [hti 0 (by decide)]; exact hcr 1 (Or.inl (by decide)))
  rw [h1] at hrun
  have h2 := generateLoop_accept ATLAS_CONFIG twoPlacedStream 1920 1080 20 100 maxAttempts
    (acceptState { attempts := 0, count := 0, placedRects := [], children := [], cursor := 0 }
      (assetLayout ATLAS_CONFIG 4 4 0 1 57 17 (-2) false 36)
      (twoPlacedStream 7 * (1920 - (assetLayout ATLAS_CONFIG 4 4 0 1 57 17 (-2) false 36).w))
      (twoPlacedStream 8 * (1080 - (assetLayout ATLAS_CONFIG 4 4 0 1 57 17 (-2) false 36).h)))
    (assetLayout ATLAS_CONFIG 4 4 0 1 57 17 (-2) false 36)
    (by simp [acceptState, maxAttempts])
    (by
      simp only [acceptState]
      rw [hti (0 + 9) (by decide)]
      exact hcr (0 + 9 + 1) (Or.inl (by decide)))
    (by
      simp only [acceptState, checkCollision, overlapsWithMargin, assetLayout, twoPlacedStream]
      norm_num)
  rw [h2] at hrun
  exact generateLoop_length_mono _ _ _ _ _ _ _ _ st 2 (by simp [acceptState]) hrun


/-! ## C2 on a pass that places two rectangles -/

/-- C2 applied to a freshly initialised manager, the stream `twoPlacedStream` and a
1920 x 1080 viewport, where the pass places at least two rectangles. -/
theorem C2_placed_rects_separated_witness :
    Reachable BgAssetManager.constructor.init ∧
    ∃ res, generateAssets ATLAS_CONFIG twoPlacedStream 1920 1080 BgAssetManager.constructor.init
        = some res ∧
      2 ≤ res.manager.placedRects.length ∧
      ∀ (i j : ℕ) (hi : i < res.manager.placedRects.length)
        (hj : j < res.manager.placedRects.length), i ≠ j →
        ¬ intersects (expand res.manager.placedRects[i] 20) res.manager.placedRects[j] ∧
        ¬ intersects (expand res.manager.placedRects[j] 20) res.manager.placedRects[i] := by
  refine ⟨Reachable.init _ Reachable.construct, ?_⟩
  obtain ⟨res, hres, hsep⟩ := C2_placed_rects_separated BgAssetManager.constructor.init
    (Reachable.init _ Reachable.construct) twoPlacedStream 1920 1080
  refine ⟨res, hres, ?_, hsep⟩
  obtain ⟨st, hst, hres1, _, _⟩ :=
    generateAssets_run twoPlacedStream 1920 1080 BgAssetManager.constructor.init [] rfl
  rw [hres1] at hres
  cases hres
  exact twoPlacedStream_places_two st hst

/-! ## C6 -/

/-- C6 (counterexample): on the manager as the constructor leaves it (no container),
`generateAssets` returns at its first line: 0 attempts and 0 placed rectangles, neither 20
rectangles nor 1000 attempts. -/
theorem C6_counterexample :
    Reachable BgAssetManager.constructor ∧
    BgAssetManager.constructor.maxAssets = 20 ∧
    ∃ res, generateAssets ATLAS_CONFIG (fun _ => 1 / 2) 1920 1080 BgAssetManager.constructor
        = some res ∧
      res.attempts = 0 ∧ res.manager.placedRects.length = 0 ∧
      ¬ (res.manager.placedRects.length = 20 ∨ res.attempts = 1000) := by
  refine ⟨Reachable.construct, rfl, _, generateAssets_of_none _ _ _ _ _ rfl, rfl, rfl, ?_⟩
  simp [BgAssetManager.constructor]

/-- C6 (amended): for every random stream and viewport, `generateAssets` on a manager with
`maxAssets = 20` returns without error after at most 1000 attempts, having placed at most 20
rectangles. When the container exists (after `init()`), `count` is the number of rectangles in
`placedRects`, and at exit exactly 20 rectangles were placed or exactly 1000 attempts were
made, so a pass that placed fewer than 20 used the whole budget. When the container is `null`
the call returns at once: no attempt, nothing placed, the manager unchanged. -/
theorem C6_pass_terminates_within_budget (rand : ℕ → ℚ) (innerWidth innerHeight : ℚ)
    (s : BgAssetManager) (hmax : s.maxAssets = 20) :
    ∃ res, generateAssets ATLAS_CONFIG rand innerWidth innerHeight s = some res ∧
      res.attempts ≤ 1000 ∧ res.count ≤ 20 ∧
      (∀ c, s.container = some c →
        res.count = res.manager.placedRects.length ∧
        res.manager.placedRects.length ≤ 20 ∧
        (res.manager.placedRects.length = 20 ∨ res.attempts = 1000) ∧
        (res.manager.placedRects.length < 20 → res.attempts = 1000)) ∧
      (s.container = none → res.attempts = 0 ∧ res.count = 0 ∧ res.manager = s) := by
  cases hc : s.container with
  | none =>
    refine ⟨_, generateAssets_of_none _ _ _ _ s hc, by simp, by simp, ?_, fun _ => ⟨rfl, rfl, rfl⟩⟩
    intro c hc1
    exact absurd hc1 (by simp)
  | some c =>
    obtain ⟨st, _, hres, ⟨h1, h2, h3, _⟩, hexit⟩ :=
      generateAssets_run rand innerWidth innerHeight s c hc
    rw [hmax] at h2 hexit
    simp only [maxAttempts] at h3 hexit
    refine ⟨_, hres, h3, h2, fun _ _ => ⟨h1, ?_, ?_, ?_⟩, fun hn => absurd hn (by simp)⟩
    · show st.placedRects.length ≤ 20
      omega
    · show st.placedRects.length = 20 ∨ st.attempts = 1000
      omega
    · show st.placedRects.length < 20 → st.attempts = 1000
      omega

/-- C6 (amended) applied to a freshly initialised manager, the stream `twoPlacedStream` and a
1920 x 1080 viewport. -/
theorem C6_pass_terminates_within_budget_witness :
    BgAssetManager.constructor.init.maxAssets = 20 ∧
    ∃ res, generateAssets ATLAS_CONFIG twoPlacedStream 1920 1080 BgAssetManager.constructor.init
        = some res ∧
      res.attempts ≤ 1000 ∧ res.count ≤ 20 ∧
      (∀ c, BgAssetManager.constructor.init.container = some c →
        res.count = res.manager.placedRects.length ∧
        res.manager.placedRects.length ≤ 20 ∧
        (res.manager.placedRects.length = 20 ∨ res.attempts = 1000) ∧
        (res.manager.placedRects.length < 20 → res.attempts = 1000)) ∧
      (BgAssetManager.constructor.init.container = none →
        res.attempts = 0 ∧ res.count = 0 ∧ res.manager = BgAssetManager.constructor.init) :=
  ⟨rfl, C6_pass_terminates_within_budget twoPlacedStream 1920 1080
    BgAssetManager.constructor.init rfl⟩

/-! ## C10 -/

/-- C10 (counterexample): fed the same stream and the same viewport, a run on the manager as
the constructor leaves it (no container) returns at once with `placedRects` empty, and a run
after `init()` places at least one rectangle: the two `placedRects` differ. -/
theorem C10_counterexample :
    Reachable BgAssetManager.constructor ∧ Reachable BgAssetManager.constructor.init ∧
    ∃ res1 res2,
      generateAssets ATLAS_CONFIG (fun _ => 1 / 2) 1920 1080 BgAssetManager.constructor
        = some res1 ∧
      generateAssets ATLAS_CONFIG (fun _ => 1 / 2) 1920 1080 BgAssetManager.constructor.init
        = some res2 ∧
      res1.manager.placedRects = [] ∧ 1 ≤ res2.manager.placedRects.length ∧
      res1.manager.placedRects ≠ res2.manager.placedRects := by
  obtain ⟨res2, h2, hlen⟩ := generateAssets_places_one (fun _ => 1 / 2) 1920 1080
    BgAssetManager.constructor.init [] rfl (by decide)
  refine ⟨Reachable.construct, Reachable.init _ Reachable.construct, _, res2,
    generateAssets_of_none _ _ _ _ _ rfl, h2, rfl, hlen, ?_⟩
  intro heq
  have h0 : (BgAssetManager.constructor.placedRects).length = 0 := rfl
  rw [heq] at h0
  omega

/-- C10 (amended): two runs of `generateAssets` on managers whose container exists (after
`init()`), fed the same random stream and the same viewport, return the same result (the same
`placedRects`, the same children of the container, the same `attempts` and `count`), whatever
the container, `placedRects` and `assets` held before each run; with the shipped configuration
both runs do return. Without a container the call returns before the state is cleared and
leaves `placedRects` and `assets` as they were. -/
theorem C10_pass_determined_by_inputs (rand : ℕ → ℚ) (innerWidth innerHeight : ℚ)
    (s : BgAssetManager) (c1 c2 : List AssetElement) (placed1 placed2 : List Rect)
    (assets1 assets2 : List AssetElement) :
    (∃ res,
      generateAssets ATLAS_CONFIG rand innerWidth innerHeight
        { s with container := some c1, placedRects := placed1, assets := assets1 } = some res ∧
      generateAssets ATLAS_CONFIG rand innerWidth innerHeight
        { s with container := some c2, placedRects := placed2, assets := assets2 } = some res) ∧
    generateAssets ATLAS_CONFIG rand innerWidth innerHeight
        { s with container := none, placedRects := placed1, assets := assets1 } =
      some { manager := { s with container := none, placedRects := placed1, assets := assets1 }
             attempts := 0
             count := 0 } := by
  refine ⟨?_, generateAssets_of_none _ _ _ _ _ rfl⟩
  obtain ⟨st, _, hres, _, _⟩ := generateAssets_run rand innerWidth innerHeight
    { s with container := some c1, placedRects := placed1, assets := assets1 } c1 rfl
  refine ⟨_, hres, ?_⟩
  rw [← hres]
  simp only [generateAssets]

end Fillico
